import Mathlib

/-!
Verification of the episode-resolution and download pipeline of the
podcast-downloader repository (`scripts/download.py` and
`scripts/podcast_batch_downloader.py`).

The Python code is shallowly embedded: pure helpers become Lean functions,
the network/filesystem effects become explicit environment records and
event traces, and the pandas metadata table becomes a list of records.
Regular-expression matching (`re.findall` / `re.search`) is embedded by a
small backtracking engine covering exactly the constructs appearing in the
source patterns (literals, `.`, `\d`, `\s`, negated character classes,
greedy and lazy star, one capture group), with Python's leftmost-match and
backtracking-priority semantics.
-/

namespace Podcast

/-! ## Python string primitives -/

/-- Python `\s` (ASCII whitespace as used by `str.strip` / `re` on ASCII text). -/
def pyIsSpace (c : Char) : Bool :=
  c == ' ' || c == '\t' || c == '\n' || c == '\r' || c == '\x0b' || c == '\x0c'

/-- Python `\w` on ASCII text: alphanumeric or underscore. -/
def pyIsWord (c : Char) : Bool :=
  c.isAlphanum || c == '_'

/-- Drop leading and trailing characters satisfying `p` (Python `str.strip`). -/
def stripWhile (p : Char → Bool) (s : List Char) : List Char :=
  ((s.dropWhile p).reverse.dropWhile p).reverse

/-- Python `str.strip()` on a string. -/
def pyStrip (s : String) : String :=
  String.mk (stripWhile pyIsSpace s.toList)

/-- Replace every maximal run of whitespace by a single space
(`re.sub(r'\s+', ' ', text)`).  The boolean records whether the previous
character was whitespace. -/
def squeezeSpaceAux : Bool → List Char → List Char
  | _, [] => []
  | prev, c :: rest =>
    if pyIsSpace c then
      if prev then squeezeSpaceAux true rest
      else ' ' :: squeezeSpaceAux true rest
    else c :: squeezeSpaceAux false rest

def squeezeSpace (s : List Char) : List Char := squeezeSpaceAux false s

/-- Python `str.split()` with no argument: split on whitespace runs,
discarding empty pieces. -/
def pySplitAux : List Char → List Char → List String
  | [], acc => if acc.isEmpty then [] else [String.mk acc.reverse]
  | c :: rest, acc =>
    if pyIsSpace c then
      if acc.isEmpty then pySplitAux rest []
      else String.mk acc.reverse :: pySplitAux rest []
    else pySplitAux rest (c :: acc)

def pySplit (s : String) : List String := pySplitAux s.toList []

/-- Split on a separator character, keeping empty pieces
(Python `s.split('/')`, `s.split('|')`). -/
def splitOnChar (sep : Char) : List Char → List (List Char)
  | [] => [[]]
  | c :: rest =>
    let r := splitOnChar sep rest
    if c == sep then [] :: r
    else
      match r with
      | h :: t => (c :: h) :: t
      | [] => [[c]]

/-- Python `str.lower()` (character-wise). -/
def pyLower (s : String) : String :=
  String.mk (s.toList.map Char.toLower)

/-- Python slice `l[:-k]`.  For `k = 0` this is `l[:0] = []` (the slip the
source falls into at the first search attempt); for `k > 0` it drops the
last `k` elements. -/
def pySliceDropLast (l : List String) (k : Nat) : List String :=
  if k == 0 then [] else l.take (l.length - k)

/-! ## `clean_string` (download.py lines 64-70) -/

/-- `unicodedata.normalize('NFKD', text).encode('ASCII', 'ignore')`:
the identity on ASCII characters; non-ASCII characters are dropped
(NFKD is the identity on the ASCII range). -/
def asciiFold (s : List Char) : List Char :=
  s.filter (fun c => c.toNat < 128)

/-- `PodcastDownloader.clean_string`.  A missing (`NaN`, non-string) value is
`none`; Python's `not text` is emptiness for strings. -/
def clean_string (text : Option String) : String :=
  match text with
  | none => "unknown"
  | some t =>
    if t.toList.isEmpty then "unknown"
    else
      let lowered := (asciiFold t.toList).map Char.toLower
      let subbed := lowered.map fun c =>
        if pyIsWord c || pyIsSpace c || c == '-' then c else ' '
      String.mk (stripWhile pyIsSpace (squeezeSpace subbed))

/-! ## Date parsing (`datetime.strptime`) and `format_filename` -/

def isLeap (y : Nat) : Bool :=
  (y % 4 == 0 && y % 100 != 0) || y % 400 == 0

def daysInMonth (y m : Nat) : Nat :=
  if m == 2 then (if isLeap y then 29 else 28)
  else if m == 4 || m == 6 || m == 9 || m == 11 then 30
  else 31

/-- Validity check performed by `datetime` after a `strptime` regex match
(years limited to `datetime.MINYEAR..MAXYEAR`). -/
def validYMD (y m d : Nat) : Bool :=
  1 ≤ y && y ≤ 9999 && 1 ≤ m && m ≤ 12 && 1 ≤ d && d ≤ daysInMonth y m

def digitsToNat (s : List Char) : Nat :=
  s.foldl (fun a c => a * 10 + (c.toNat - 48)) 0

def isDigit19 (c : Char) : Bool :=
  '1' ≤ c && c ≤ '9'

/-- CPython's `%m` component regex (`Lib/_strptime.py`):
`1[0-2]|0[1-9]|[1-9]`.  Each alternative that matches a prefix is
returned as `(month, rest)`, in the regex's left-to-right priority
order. -/
def monthAlts (s : List Char) : List (Nat × List Char) :=
  (match s with
   | '1' :: c :: rest =>
     if '0' ≤ c && c ≤ '2' then [(10 + (c.toNat - 48), rest)] else []
   | _ => []) ++
  (match s with
   | '0' :: c :: rest => if isDigit19 c then [(c.toNat - 48, rest)] else []
   | _ => []) ++
  (match s with
   | c :: rest => if isDigit19 c then [(c.toNat - 48, rest)] else []
   | [] => [])

/-- CPython's `%d` component regex:
`3[0-1]|[1-2]\d|0[1-9]|[1-9]| [1-9]` (note the space-padded single-digit
day), in priority order. -/
def dayAlts (s : List Char) : List (Nat × List Char) :=
  (match s with
   | '3' :: c :: rest =>
     if c == '0' || c == '1' then [(30 + (c.toNat - 48), rest)] else []
   | _ => []) ++
  (match s with
   | c1 :: c2 :: rest =>
     if (c1 == '1' || c1 == '2') && c2.isDigit then
       [((c1.toNat - 48) * 10 + (c2.toNat - 48), rest)]
     else []
   | _ => []) ++
  (match s with
   | '0' :: c :: rest => if isDigit19 c then [(c.toNat - 48, rest)] else []
   | _ => []) ++
  (match s with
   | c :: rest => if isDigit19 c then [(c.toNat - 48, rest)] else []
   | [] => []) ++
  (match s with
   | ' ' :: c :: rest => if isDigit19 c then [(c.toNat - 48, rest)] else []
   | _ => [])

/-- CPython's `%Y` component regex: exactly four digits (`\d\d\d\d`). -/
def yearAlt (s : List Char) : List (Nat × List Char) :=
  match s with
  | a :: b :: c :: d :: rest =>
    if a.isDigit && b.isDigit && c.isDigit && d.isDigit then
      [(digitsToNat [a, b, c, d], rest)] else []
  | _ => []

/-- `datetime.strptime(s, '%m/%d/%Y')`: the component regexes above with
literal slashes, full match with left-to-right backtracking, then
`datetime` validation of the first full match (a validation failure does
not re-enter the regex). -/
def parseSlashDate (s : String) : Option (Nat × Nat × Nat) :=
  let fullMatch :=
    (monthAlts s.toList).findSome? fun mr =>
      match mr.2 with
      | '/' :: r2 =>
        (dayAlts r2).findSome? fun dr =>
          match dr.2 with
          | '/' :: r4 =>
            (yearAlt r4).findSome? fun yr =>
              if yr.2.isEmpty then some (yr.1, mr.1, dr.1) else none
          | _ => none
      | _ => none
  match fullMatch with
  | some (y, m, d) => if validYMD y m d then some (y, m, d) else none
  | none => none

/-- `datetime.strptime(s, '%Y%m%d')`: the same component regexes
concatenated, full match with backtracking, then validation. -/
def parseCompactDate (s : String) : Option (Nat × Nat × Nat) :=
  let fullMatch :=
    (yearAlt s.toList).findSome? fun yr =>
      (monthAlts yr.2).findSome? fun mr =>
        (dayAlts mr.2).findSome? fun dr =>
          if dr.2.isEmpty then some (yr.1, mr.1, dr.1) else none
  match fullMatch with
  | some (y, m, d) => if validYMD y m d then some (y, m, d) else none
  | none => none

/-- Zero-pad to two digits (`strftime('%m')`, `strftime('%d')`). -/
def pad2 (n : Nat) : String :=
  if n < 10 then "0" ++ toString n else toString n

/-- `date_obj.strftime('%Y%m%d')` (glibc prints `%Y` unpadded; for the
four-digit years the claims speak about this is the plain decimal year). -/
def fmtYMD (y m d : Nat) : String :=
  toString y ++ pad2 m ++ pad2 d

/-- `PodcastDownloader.format_filename` (download.py lines 72-86).
`today` stands for `datetime.now().strftime('%Y%m%d')` at the time of the
run; `date_str = none` models a `NaN` cell. -/
def format_filename (today : String) (source : String)
    (candidate_name podcast_title : Option String)
    (date_str : Option String) : String :=
  let date_clean :=
    match date_str with
    | none => today
    | some s =>
      if s.toList.contains '/' then
        match parseSlashDate s with
        | some (y, m, d) => fmtYMD y m d
        | none => today
      else
        match parseCompactDate s with
        | some (y, m, d) => fmtYMD y m d
        | none => today
  source ++ "_" ++ clean_string candidate_name ++ "_" ++
    clean_string podcast_title ++ "_" ++ date_clean

/-! ## Regular-expression engine

Just enough of Python `re` for the patterns in the source: sequences of
single-character items, greedy/lazy star over an item, and one capture
group.  `matchToks` returns the list of possible remaining suffixes in
backtracking priority order, so its head is the remainder chosen by
Python's engine. -/

inductive RItem where
  | lit (c : Char)
  | anyc
  | digit
  | space
  | nonquote
  | nongt
  | nondq
  deriving Repr, DecidableEq

def RItem.matches1 (ci : Bool) : RItem → Char → Bool
  | .lit c, x => if ci then x.toLower == c.toLower else x == c
  | .anyc, x => x != '\n'
  | .digit, x => x.isDigit
  | .space, x => pyIsSpace x
  | .nonquote, x => x != '"' && x != '\''
  | .nongt, x => x != '>'
  | .nondq, x => x != '"'

inductive RTok where
  | item (i : RItem)
  | star (greedy : Bool) (i : RItem)
  deriving Repr, DecidableEq

/-- Suffixes reachable by letting `i*` consume 0, 1, 2, … characters
(shortest first, i.e. lazy order). -/
def consumeRuns (ci : Bool) (i : RItem) : List Char → List (List Char)
  | [] => [[]]
  | c :: rest =>
    (c :: rest) :: (if i.matches1 ci c then consumeRuns ci i rest else [])

/-- All remaining suffixes after matching the token list against a prefix of
`s`, in backtracking priority order (greedy stars try longest first). -/
def matchToks (ci : Bool) : List RTok → List Char → List (List Char)
  | [], s => [s]
  | .item i :: ts, s =>
    match s with
    | [] => []
    | c :: rest => if i.matches1 ci c then matchToks ci ts rest else []
  | .star g i :: ts, s =>
    let runs := consumeRuns ci i s
    let ordered := if g then runs.reverse else runs
    ordered.flatMap (fun r => matchToks ci ts r)

/-- First match scanning start positions left to right: returns
`(match, remainder-after-match)`. -/
def searchFrom (ci : Bool) (pat : List RTok) : List Char → Option (List Char × List Char)
  | [] =>
    match (matchToks ci pat []).head? with
    | some rest => some ([], rest)
    | none => none
  | c :: t =>
    match (matchToks ci pat (c :: t)).head? with
    | some rest => some ((c :: t).take ((c :: t).length - rest.length), rest)
    | none => searchFrom ci pat t

/-- `re.findall(pat, s)` for a groupless pattern: non-overlapping matches,
scanning left to right, continuing after each match (advancing one
character after an empty match, as Python does). -/
def findallFuel (ci : Bool) (pat : List RTok) : Nat → List Char → List (List Char)
  | 0, _ => []
  | fuel + 1, s =>
    match searchFrom ci pat s with
    | none => []
    | some (m, rest) =>
      if m.isEmpty then
        match rest with
        | [] => [m]
        | _ :: t => m :: findallFuel ci pat fuel t
      else m :: findallFuel ci pat fuel rest

def findall (ci : Bool) (pat : List RTok) (s : String) : List String :=
  (findallFuel ci pat (s.toList.length + 1) s.toList).map String.mk

/-- A pattern with a single capture group: tokens before, inside and after
the group. -/
structure GPat where
  pre : List RTok
  grp : List RTok
  post : List RTok
  deriving Repr

/-- Try a grouped match anchored at the start of `s`; alternatives explored
in backtracking priority order; the capture is what the group consumed. -/
def matchGrouped (ci : Bool) (p : GPat) (s : List Char) : Option (List Char) :=
  (matchToks ci p.pre s).findSome? fun r1 =>
    (matchToks ci p.grp r1).findSome? fun r2 =>
      match (matchToks ci p.post r2).head? with
      | some _ => some (r1.take (r1.length - r2.length))
      | none => none

/-- `re.search(p, s, re.IGNORECASE).group(1)`. -/
def searchGrouped (ci : Bool) (p : GPat) : List Char → Option (List Char)
  | [] => matchGrouped ci p []
  | c :: t =>
    match matchGrouped ci p (c :: t) with
    | some g => some g
    | none => searchGrouped ci p t

def searchGroup (ci : Bool) (p : GPat) (s : String) : Option String :=
  (searchGrouped ci p s.toList).map String.mk

/-- Literal characters as tokens. -/
def lits (s : String) : List RTok :=
  s.toList.map (fun c => RTok.item (RItem.lit c))

/-! ## Audio-URL and metadata patterns (download.py lines 94-136) -/

def gapQ : RTok := RTok.star true RItem.nonquote

/-- The nine `audio_patterns` of `extract_metadata`, in priority order. -/
def audioPatterns : List (List RTok) :=
  [ lits "https://" ++ [gapQ] ++ lits ".mp3" ++ [gapQ],
    lits "https://" ++ [gapQ] ++ lits "audio" ++ [gapQ] ++ lits ".m4a" ++ [gapQ],
    lits "https://" ++ [gapQ] ++ lits ".aac" ++ [gapQ],
    lits "https://dts.podtrac.com/" ++ [gapQ],
    lits "https://chrt.fm/track/" ++ [gapQ],
    lits "https://pdst.fm/" ++ [gapQ],
    lits "https://traffic.megaphone.fm/" ++ [gapQ],
    lits "https://play.podtrac.com/" ++ [gapQ],
    lits "https://www.podtrac.com/pts/redirect.mp3/" ++ [gapQ] ]

def lazyAny : RTok := RTok.star false RItem.anyc

def gapGt : RTok := RTok.star true RItem.nongt

def titlePatterns : List GPat :=
  [ ⟨lits "<title>", [lazyAny], lits "</title>"⟩,
    ⟨lits "<meta property=\"og:title\" content=\"", [lazyAny], lits "\""⟩,
    ⟨lits "<h1" ++ [gapGt] ++ lits ">", [lazyAny], lits "</h1>"⟩,
    ⟨lits "<meta name=\"title\" content=\"", [lazyAny], lits "\""⟩ ]

def descriptionPatterns : List GPat :=
  [ ⟨lits "<meta name=\"description\" content=\"", [lazyAny], lits "\""⟩,
    ⟨lits "<meta property=\"og:description\" content=\"", [lazyAny], lits "\""⟩,
    ⟨lits "<div" ++ [gapGt] ++ lits "class=\"" ++ [RTok.star true RItem.nondq] ++
       lits "description" ++ [RTok.star true RItem.nondq] ++ lits "\"" ++ [gapGt] ++ lits ">",
     [lazyAny], lits "</div>"⟩,
    ⟨lits "<meta name=\"twitter:description\" content=\"", [lazyAny], lits "\""⟩ ]

def durationPatterns : List GPat :=
  [ ⟨lits "duration" ++ [lazyAny],
     [RTok.item RItem.digit, RTok.star true RItem.digit, RTok.item (RItem.lit ':'),
      RTok.item RItem.digit, RTok.star true RItem.digit], []⟩,
    ⟨lits "\"duration\":" ++ [RTok.star true RItem.space] ++ lits "\"", [lazyAny], lits "\""⟩,
    ⟨lits "itemprop=\"duration\"" ++ [gapGt] ++ lits ">", [lazyAny], lits "<"⟩,
    ⟨lits "data-duration=\"", [lazyAny], lits "\""⟩ ]

/-! ## `extract_metadata` (download.py lines 88-159) -/

/-- `PodcastDownloader._extract_with_patterns`: first pattern that matches
wins, its group 1 stripped; otherwise `None`. -/
def extractWithPatterns (content : String) (patterns : List GPat) : Option String :=
  patterns.findSome? fun p => (searchGroup true p content).map pyStrip

/-- `url.split('"')[0].split("'")[0]`. -/
def pyCleanUrl (u : String) : String :=
  String.mk ((u.toList.takeWhile (fun c => c != '"')).takeWhile (fun c => c != '\''))

/-- The `not url or pd.isna(url) or url.lower() == 'unavailable'` guard
(`none` models a `NaN` cell). -/
def urlInvalid : Option String → Bool
  | none => true
  | some u => u.toList.isEmpty || pyLower u == "unavailable"

/-- The inner match loop of `extract_metadata`: clean each match and
append it to the candidate list if unseen (`seen_urls` coincides with
membership in the accumulated list). -/
def dedupAppend (l : List String) (ms : List String) : List String :=
  ms.foldl (fun l m =>
    let cu := pyCleanUrl m
    if l.contains cu then l else l ++ [cu]) l

/-- One `for pattern in audio_patterns` iteration: run `findall`, fold the
matches into the candidate list, and rebind the loop variable `url` to the
last raw match when there is one. -/
def audioStep (content : String) (acc : List String × Option String)
    (pat : List RTok) : List String × Option String :=
  let ms := findall false pat content
  (dedupAppend acc.1 ms,
   match ms.getLast? with
   | some m => some m
   | none => acc.2)

/-- The audio-URL collection loop of `extract_metadata`: every match of
every pattern is cleaned and appended if unseen, and the loop variable
`url` is rebound to each raw match in turn.  Returns the deduplicated list
and the final value of the rebound `url` variable (if any match occurred). -/
def audioScan (content : String) : List String × Option String :=
  audioPatterns.foldl (audioStep content) ([], none)

structure Meta where
  original_url : String
  audio_urls : List String
  title : Option String
  description : Option String
  duration : Option String
  extracted_at : String
  deriving Repr, DecidableEq

/-- `PodcastDownloader.extract_metadata`.  `audio_urls` keeps the list that
the source stores JSON-encoded; `original_url` is the loop-rebound `url`
variable, which falls back to the `url` argument only when no audio
pattern matched.  `now` stands for `datetime.now().isoformat()`. -/
def extract_metadata (now : String) (url : Option String) (content : String) : Option Meta :=
  if urlInvalid url then none
  else
    let scan := audioScan content
    some
      { original_url := scan.2.getD (url.getD ""),
        audio_urls := scan.1,
        title := extractWithPatterns content titlePatterns,
        description := extractWithPatterns content descriptionPatterns,
        duration := extractWithPatterns content durationPatterns,
        extracted_at := now }

/-! ## Network environment and event traces -/

/-- One entry of the iTunes search response's `results` list, with the
fields the source reads (`episodeUrl` in download.py, `trackName` and
`trackViewUrl` in podcast_batch_downloader.py). -/
structure SearchResult where
  trackName : Option String
  trackViewUrl : Option String
  episodeUrl : Option String
  deriving Repr, DecidableEq

/-- The parts of a `requests` response the source uses: `status_code`,
`text`, `.json()['results']` (`none` models a raising `.json()`),
`iter_content` chunks, and whether iteration raises after the yielded
chunks (a truncated stream). -/
structure Resp where
  status : Nat
  text : String
  json : Option (List SearchResult)
  chunks : List String
  truncated : Bool
  deriving Repr, DecidableEq

/-- `session.get` either raises a transport-level exception or returns a
response. -/
inductive NetResult where
  | err
  | ok (r : Resp)
  deriving Repr, DecidableEq

/-- The network, as a function from URL to outcome. -/
structure Env where
  fetch : String → NetResult

/-- Observable side effects: plain fetches, streaming (download) fetches,
and sleeps (in seconds). -/
inductive Ev where
  | fetch (url : String)
  | fetchStream (url : String)
  | sleep (secs : Nat)
  deriving Repr, DecidableEq

def hexDigit (n : Nat) : Char :=
  if n < 10 then Char.ofNat (48 + n) else Char.ofNat (55 + n)

/-- `urllib.parse.quote` on ASCII text (default safe set plus `/`). -/
def pyQuote (s : String) : String :=
  String.mk (s.toList.flatMap fun c =>
    if c.isAlphanum || c == '_' || c == '.' || c == '-' || c == '~' || c == '/' then
      [c]
    else ['%', hexDigit (c.toNat / 16 % 16), hexDigit (c.toNat % 16)])

/-- The iTunes search URL built at download.py line 184. -/
def searchUrl (term : String) : String :=
  "https://itunes.apple.com/search?term=" ++ pyQuote term ++
    "&entity=podcastEpisode&limit=20"

/-- `' '.join(ws)`. -/
def joinSpace : List String → String
  | [] => ""
  | [w] => w
  | w :: rest => w ++ " " ++ joinSpace rest

/-- Lines 178-181: the search term used at a given attempt index.  Note
that Python's `words[:-(attempt)]` is the empty list when `attempt = 0`. -/
def relaxedSearchTerm (episode_title : String) (attempt : Nat) : String :=
  let search_term := clean_string (some episode_title)
  let words := pySplit search_term
  if words.length > attempt + 1 then joinSpace (pySliceDropLast words attempt)
  else search_term

/-- Lines 190-194: the first search result whose `episodeUrl` is truthy. -/
def firstEpisodeUrl : List SearchResult → Option String
  | [] => none
  | r :: rest =>
    match r.episodeUrl with
    | some u => if u.toList.isEmpty then firstEpisodeUrl rest else some u
    | none => firstEpisodeUrl rest

/-! ## `get_audio_url_with_retries` (download.py lines 161-203) -/

/-- The source recursion at line 194 always passes `retries=1`; with one
retry the search branch is dead (`attempt < retries - 1` is `0 < 0`), so
that call is the following non-recursive single attempt: fetch the
episode URL, return the first extracted audio URL on a 200 response, and
otherwise end with `(None, None)` — sleeping `1 + 0` on an ordinary miss
and not sleeping on an exception (no backoff after the final attempt). -/
def gaOnce (env : Env) (now : String) (url : Option String)
    (episode_title : String) : (Option String × Option Meta) × List Ev :=
  if urlInvalid url then ((none, none), [])
  else
    let u := url.getD ""
    match env.fetch u with
    | NetResult.err => ((none, none), [Ev.fetch u])
    | NetResult.ok r =>
      if r.status = 200 then
        match extract_metadata now (some u) r.text with
        | some md =>
          match md.audio_urls with
          | a :: _ => ((some a, some md), [Ev.fetch u])
          | [] => ((none, none), [Ev.fetch u])
        | none => ((none, none), [Ev.fetch u, Ev.sleep 1])
      else ((none, none), [Ev.fetch u, Ev.sleep 1])

/-- Outcome of the iTunes-search block (lines 176-196) of one attempt:
return a result (search hit, recursing with `retries=1`), fall through to
the `sleep(1 + attempt)` and the next attempt, or raise (handled by the
`except` clause's backoff). -/
inductive SearchOutcome where
  | ret (res : Option String × Option Meta) (tr : List Ev)
  | cont (tr : List Ev)
  | exn (tr : List Ev)
  deriving Repr

/-- The search block of one resolver attempt.  When attempts remain, the
relaxed term is searched; a result with a truthy `episodeUrl` resolves via
the `retries=1` recursion (`gaOnce`); a non-200 search response or no
usable result falls through to the linear sleep; a raising fetch or
`.json()` raises out to the `except` clause. -/
def gaSearchStep (env : Env) (now : String) (episode_title : String)
    (retries attempt : Nat) : SearchOutcome :=
  if attempt < retries - 1 then
    let su := searchUrl (relaxedSearchTerm episode_title attempt)
    match env.fetch su with
    | NetResult.err => SearchOutcome.exn [Ev.fetch su]
    | NetResult.ok sr =>
      if sr.status = 200 then
        match sr.json with
        | none => SearchOutcome.exn [Ev.fetch su]
        | some results =>
          match firstEpisodeUrl results with
          | some eu =>
            let r := gaOnce env now (some eu) episode_title
            SearchOutcome.ret r.1 ([Ev.fetch su] ++ r.2)
          | none => SearchOutcome.cont [Ev.fetch su, Ev.sleep (1 + attempt)]
      else SearchOutcome.cont [Ev.fetch su, Ev.sleep (1 + attempt)]
  else SearchOutcome.cont [Ev.sleep (1 + attempt)]

/-- The `for attempt in range(retries)` loop, over the list of remaining
attempt indices.  Each iteration fetches the direct URL; a 200 response
with a non-empty extracted audio list returns immediately; a 200 response
with an empty list raises `IndexError` at `audio_urls[0]` and lands in the
`except` clause (exponential backoff `2 ** attempt` before non-final
attempts); otherwise the search block runs, followed by the linear sleep.
Exhausting the attempts yields `(None, None)`. -/
def gaLoop (env : Env) (now : String) (u : String) (episode_title : String)
    (retries : Nat) : List Nat → (Option String × Option Meta) × List Ev
  | [] => ((none, none), [])
  | attempt :: rest_attempts =>
    let backoff : List Ev :=
      if attempt < retries - 1 then [Ev.sleep (2 ^ attempt)] else []
    let handle : SearchOutcome → (Option String × Option Meta) × List Ev :=
      fun o =>
        match o with
        | SearchOutcome.ret res tr => (res, [Ev.fetch u] ++ tr)
        | SearchOutcome.cont tr =>
          let rest := gaLoop env now u episode_title retries rest_attempts
          (rest.1, [Ev.fetch u] ++ tr ++ rest.2)
        | SearchOutcome.exn tr =>
          let rest := gaLoop env now u episode_title retries rest_attempts
          (rest.1, [Ev.fetch u] ++ tr ++ backoff ++ rest.2)
    match env.fetch u with
    | NetResult.err =>
      let rest := gaLoop env now u episode_title retries rest_attempts
      (rest.1, [Ev.fetch u] ++ backoff ++ rest.2)
    | NetResult.ok r =>
      if r.status = 200 then
        match extract_metadata now (some u) r.text with
        | some md =>
          match md.audio_urls with
          | a :: _ => ((some a, some md), [Ev.fetch u])
          | [] =>
            let rest := gaLoop env now u episode_title retries rest_attempts
            (rest.1, [Ev.fetch u] ++ backoff ++ rest.2)
        | none => handle (gaSearchStep env now episode_title retries attempt)
      else handle (gaSearchStep env now episode_title retries attempt)

/-- `PodcastDownloader.get_audio_url_with_retries`. -/
def get_audio_url_with_retries (env : Env) (now : String) (url : Option String)
    (episode_title : String) (retries : Nat) :
    (Option String × Option Meta) × List Ev :=
  if urlInvalid url then ((none, none), [])
  else gaLoop env now (url.getD "") episode_title retries (List.range retries)

/-! ## Catalog rows and the metadata ledger (download.py lines 205-258) -/

/-- One catalog (master CSV) row; `none` models a `NaN` cell. -/
structure Row where
  candidate_name : Option String
  podcast_title : Option String
  episode_title : Option String
  date_posted : Option String
  hyperlink : Option String
  deriving Repr, DecidableEq

/-- One row of `metadata_df` (the status ledger), with the fourteen columns
of the source. -/
structure LRow where
  original_url : Option String
  audio_urls : Option (List String)
  title : Option String
  description : Option String
  duration : Option String
  extracted_at : Option String
  candidate_name : Option String
  podcast_title : Option String
  episode_title : Option String
  date_posted : Option String
  downloaded_at : Option String
  download_path : Option String
  status : String
  error_message : Option String
  deriving Repr, DecidableEq, Inhabited

/-- Pandas `==` on possibly-`NaN` cells: `NaN` compares unequal to
everything, including itself. -/
def sameKey (a b : Option String) : Bool :=
  match a, b with
  | some x, some y => x == y
  | _, _ => false

/-- The boolean mask `(episode_title == row['Episode title']) &
(podcast_title == row['Podcast title'])` applied to one ledger row. -/
def rowMatches (row : Row) (r : LRow) : Bool :=
  sameKey r.episode_title row.episode_title && sameKey r.podcast_title row.podcast_title

/-- Index of the first element satisfying `p` (`df[mask].index[0]`). -/
def findIdxFrom {α : Type} (p : α → Bool) : List α → Option Nat
  | [] => none
  | r :: rest => if p r then some 0 else (findIdxFrom p rest).map (· + 1)

def maskIdx (df : List LRow) (row : Row) : Option Nat :=
  findIdxFrom (rowMatches row) df

/-- The `record` dictionary built by `update_metadata`, with the metadata
fields overlaid when `metadata` is provided. -/
def mkRecord (now : String) (row : Row) (metadata : Option Meta)
    (download_path : Option String) (status : String)
    (error_message : Option String) : LRow :=
  let base : LRow :=
    { candidate_name := row.candidate_name
      podcast_title := row.podcast_title
      episode_title := row.episode_title
      date_posted := row.date_posted
      status := status
      error_message := error_message
      downloaded_at := if download_path.isSome then some now else none
      download_path := download_path
      original_url := none
      audio_urls := none
      title := none
      description := none
      duration := none
      extracted_at := none }
  match metadata with
  | some m =>
    { base with
      original_url := some m.original_url
      audio_urls := some m.audio_urls
      title := m.title
      description := m.description
      duration := m.duration
      extracted_at := some m.extracted_at }
  | none => base

/-- `PodcastDownloader.update_metadata`: upsert keyed by
(episode title, podcast title).  An existing first-matching row is
overwritten only when the new status is `completed` or the existing status
is `failed`; otherwise (no matching row) the record is appended. -/
def update_metadata (now : String) (df : List LRow) (row : Row)
    (metadata : Option Meta) (download_path : Option String)
    (status : String) (error_message : Option String) : List LRow :=
  let record := mkRecord now row metadata download_path status error_message
  match maskIdx df row with
  | some i =>
    if status == "completed" || (df.getD i default).status == "failed" then
      df.set i record
    else df
  | none => df ++ [record]

/-- An identity's row predicate: present (episode title, podcast title)
pair equal to `(t, p)`. -/
def keyPred (t p : String) (r : LRow) : Bool :=
  sameKey r.episode_title (some t) && sameKey r.podcast_title (some p)

/-- Number of ledger rows for the identity (episode title, podcast title). -/
def keyCount (df : List LRow) (t p : String) : Nat :=
  (df.filter (keyPred t p)).length

/-- First ledger row for an identity, if any. -/
def lookupKey (df : List LRow) (t p : String) : Option LRow :=
  df.find? (keyPred t p)

/-! ## List lemmas about first-match update -/

theorem findIdxFrom_cons_true {α : Type} {p : α → Bool} {a : α} (l : List α)
    (hpa : p a = true) : findIdxFrom p (a :: l) = some 0 := by
  rw [findIdxFrom, if_pos hpa]

theorem findIdxFrom_cons_false {α : Type} {p : α → Bool} {a : α} (l : List α)
    (hpa : p a = false) : findIdxFrom p (a :: l) = (findIdxFrom p l).map (· + 1) := by
  rw [findIdxFrom, if_neg (by simp [hpa])]

theorem findIdxFrom_none {α : Type} {p : α → Bool} :
    ∀ {df : List α}, findIdxFrom p df = none → ∀ r ∈ df, p r = false := by
  intro df
  induction df with
  | nil => intro _ r hr; cases hr
  | cons a l ih =>
    intro h r hr
    cases hpa : p a with
    | true => rw [findIdxFrom_cons_true l hpa] at h; cases h
    | false =>
      rw [findIdxFrom_cons_false l hpa, Option.map_eq_none'] at h
      rcases List.mem_cons.mp hr with rfl | hr'
      · exact hpa
      · exact ih h r hr'

theorem findIdxFrom_bound {α : Type} [Inhabited α] {p : α → Bool} :
    ∀ {df : List α} {i : Nat}, findIdxFrom p df = some i →
      i < df.length ∧ p (df.getD i default) = true := by
  intro df
  induction df with
  | nil => intro i h; cases h
  | cons a l ih =>
    intro i h
    cases hpa : p a with
    | true =>
      rw [findIdxFrom_cons_true l hpa] at h
      injection h with h
      subst h
      exact ⟨Nat.succ_pos _, by simpa using hpa⟩
    | false =>
      rw [findIdxFrom_cons_false l hpa] at h
      cases hrec : findIdxFrom p l with
      | none => rw [hrec] at h; cases h
      | some j =>
        rw [hrec] at h
        injection h with h
        subst h
        rcases ih hrec with ⟨hlen, hp⟩
        exact ⟨Nat.succ_lt_succ hlen, by simpa using hp⟩

theorem find?_of_findIdxFrom {α : Type} [Inhabited α] {p : α → Bool} :
    ∀ {df : List α} {i : Nat}, findIdxFrom p df = some i →
      df.find? p = some (df.getD i default) := by
  intro df
  induction df with
  | nil => intro i h; cases h
  | cons a l ih =>
    intro i h
    cases hpa : p a with
    | true =>
      rw [findIdxFrom_cons_true l hpa] at h
      injection h with h
      subst h
      simp [List.find?, hpa]
    | false =>
      rw [findIdxFrom_cons_false l hpa] at h
      cases hrec : findIdxFrom p l with
      | none => rw [hrec] at h; cases h
      | some j =>
        rw [hrec] at h
        injection h with h
        subst h
        simpa [List.find?, hpa] using ih hrec

theorem findIdxFrom_of_find? {α : Type} [Inhabited α] {p : α → Bool} :
    ∀ {df : List α} {e : α}, df.find? p = some e →
      ∃ i, findIdxFrom p df = some i ∧ df.getD i default = e := by
  intro df
  induction df with
  | nil => intro e h; cases h
  | cons a l ih =>
    intro e h
    cases hpa : p a with
    | true =>
      rw [List.find?, hpa] at h
      refine ⟨0, findIdxFrom_cons_true l hpa, ?_⟩
      cases h; rfl
    | false =>
      rw [List.find?, hpa] at h
      rcases ih h with ⟨j, hj, he⟩
      exact ⟨j + 1, by rw [findIdxFrom_cons_false l hpa, hj]; rfl, by simpa using he⟩

theorem findIdxFrom_set {α : Type} {p : α → Bool} {x : α} (hx : p x = true) :
    ∀ {df : List α} {i : Nat}, findIdxFrom p df = some i →
      findIdxFrom p (df.set i x) = some i := by
  intro df
  induction df with
  | nil => intro i h; cases h
  | cons a l ih =>
    intro i h
    cases hpa : p a with
    | true =>
      rw [findIdxFrom_cons_true l hpa] at h
      injection h with h
      subst h
      rw [List.set_cons_zero]
      exact findIdxFrom_cons_true l hx
    | false =>
      rw [findIdxFrom_cons_false l hpa] at h
      cases hrec : findIdxFrom p l with
      | none => rw [hrec] at h; cases h
      | some j =>
        rw [hrec] at h
        injection h with h
        subst h
        rw [List.set_cons_succ, findIdxFrom_cons_false _ hpa, ih hrec]
        rfl

theorem find?_set_of_findIdxFrom {α : Type} {p : α → Bool} {x : α} (hx : p x = true) :
    ∀ {df : List α} {i : Nat}, findIdxFrom p df = some i →
      (df.set i x).find? p = some x := by
  intro df
  induction df with
  | nil => intro i h; cases h
  | cons a l ih =>
    intro i h
    cases hpa : p a with
    | true =>
      rw [findIdxFrom_cons_true l hpa] at h
      injection h with h
      subst h
      simp [List.set, List.find?, hx]
    | false =>
      rw [findIdxFrom_cons_false l hpa] at h
      cases hrec : findIdxFrom p l with
      | none => rw [hrec] at h; cases h
      | some j =>
        rw [hrec] at h
        injection h with h
        subst h
        simpa [List.set, List.find?, hpa] using ih hrec

theorem length_filter_set {α : Type} [Inhabited α] (q : α → Bool) :
    ∀ (df : List α) (i : Nat) (x : α), i < df.length →
      ((df.set i x).filter q).length + (if q (df.getD i default) then 1 else 0)
        = (df.filter q).length + (if q x then 1 else 0) := by
  intro df
  induction df with
  | nil => intro i x h; cases h
  | cons a l ih =>
    intro i x h
    cases i with
    | zero =>
      rw [List.set_cons_zero, List.getD_cons_zero, List.filter_cons, List.filter_cons]
      by_cases hqx : q x = true <;> by_cases hqa : q a = true <;> simp [hqx, hqa]
    | succ j =>
      have hj : j < l.length := Nat.lt_of_succ_lt_succ h
      have hrec := ih j x hj
      rw [List.set_cons_succ, List.getD_cons_succ, List.filter_cons, List.filter_cons]
      by_cases hqa : q a = true <;> by_cases hql : q (l.getD j default) = true <;>
        by_cases hqx : q x = true <;> simp [hqa, hql, hqx] at hrec ⊢ <;> omega

theorem findIdxFrom_append_one {α : Type} {p : α → Bool} (df : List α) (x : α) :
    findIdxFrom p (df ++ [x]) =
      match findIdxFrom p df with
      | some i => some i
      | none => if p x then some df.length else none := by
  induction df with
  | nil => cases hpx : p x <;> simp [findIdxFrom, hpx]
  | cons a l ih =>
    cases hpa : p a with
    | true =>
      rw [List.cons_append, findIdxFrom_cons_true _ hpa, findIdxFrom_cons_true l hpa]
    | false =>
      rw [List.cons_append, findIdxFrom_cons_false _ hpa, findIdxFrom_cons_false l hpa, ih]
      cases hrec : findIdxFrom p l with
      | none => cases hpx : p x <;> simp [hpx]
      | some j => simp

theorem set_append_last {α : Type} (df : List α) (x y : α) :
    (df ++ [x]).set df.length y = df ++ [y] := by
  induction df with
  | nil => rfl
  | cons a l ih => simp [List.set, ih]

theorem filter_pos_of_findIdxFrom {α : Type} [Inhabited α] {p : α → Bool}
    {df : List α} {i : Nat} (h : findIdxFrom p df = some i) :
    0 < (df.filter p).length := by
  rcases findIdxFrom_bound h with ⟨hlen, hp⟩
  have hmem : df.getD i default ∈ df := by
    have := List.getD_eq_getElem df default hlen
    rw [this]
    exact List.getElem_mem hlen
  have : df.getD i default ∈ df.filter p := List.mem_filter.mpr ⟨hmem, hp⟩
  exact List.length_pos.mpr (fun hnil => by simp [hnil] at this)

theorem keyCount_zero_of_no_match {df : List LRow} {t p : String}
    (h : findIdxFrom (keyPred t p) df = none) : keyCount df t p = 0 := by
  have hall := findIdxFrom_none h
  unfold keyCount
  rw [List.filter_eq_nil_iff.mpr (fun r hr => by simp [hall r hr])]
  rfl

/-! ## Record key facts -/

theorem mkRecord_episode (now : String) (row : Row) (md : Option Meta)
    (dp : Option String) (st : String) (em : Option String) :
    (mkRecord now row md dp st em).episode_title = row.episode_title := by
  cases md <;> rfl

theorem mkRecord_podcast (now : String) (row : Row) (md : Option Meta)
    (dp : Option String) (st : String) (em : Option String) :
    (mkRecord now row md dp st em).podcast_title = row.podcast_title := by
  cases md <;> rfl

theorem mkRecord_status (now : String) (row : Row) (md : Option Meta)
    (dp : Option String) (st : String) (em : Option String) :
    (mkRecord now row md dp st em).status = st := by
  cases md <;> rfl

theorem rowMatches_eq_keyPred {row : Row} {t p : String}
    (ht : row.episode_title = some t) (hp : row.podcast_title = some p) :
    rowMatches row = keyPred t p := by
  funext r
  simp [rowMatches, keyPred, ht, hp]

theorem keyPred_true_iff {t p : String} {r : LRow} :
    keyPred t p r = true ↔ r.episode_title = some t ∧ r.podcast_title = some p := by
  cases he : r.episode_title <;> cases hpp : r.podcast_title <;>
    simp [keyPred, sameKey, he, hpp]

theorem keyPred_mkRecord {row : Row} {t p : String}
    (ht : row.episode_title = some t) (hp : row.podcast_title = some p)
    (now : String) (md : Option Meta) (dp : Option String) (st : String)
    (em : Option String) :
    keyPred t p (mkRecord now row md dp st em) = true :=
  keyPred_true_iff.mpr ⟨by rw [mkRecord_episode, ht], by rw [mkRecord_podcast, hp]⟩

/-- `update_metadata` with the mask predicate written through the identity
`(t, p)` of the row being upserted. -/
theorem update_metadata_eq (now : String) (df : List LRow) (row : Row)
    (md : Option Meta) (dp : Option String) (status : String) (em : Option String)
    {t p : String} (ht : row.episode_title = some t) (hp : row.podcast_title = some p) :
    update_metadata now df row md dp status em =
      match findIdxFrom (keyPred t p) df with
      | some i =>
        if status == "completed" || (df.getD i default).status == "failed" then
          df.set i (mkRecord now row md dp status em)
        else df
      | none => df ++ [mkRecord now row md dp status em] := by
  unfold update_metadata maskIdx
  rw [rowMatches_eq_keyPred ht hp]

theorem update_metadata_found (now : String) (df : List LRow) (row : Row)
    (md : Option Meta) (dp : Option String) (status : String) (em : Option String)
    {t p : String} {i : Nat} (ht : row.episode_title = some t)
    (hp : row.podcast_title = some p)
    (hidx : findIdxFrom (keyPred t p) df = some i) :
    update_metadata now df row md dp status em =
      if status == "completed" || (df.getD i default).status == "failed" then
        df.set i (mkRecord now row md dp status em)
      else df := by
  rw [update_metadata_eq now df row md dp status em ht hp, hidx]

theorem update_metadata_missing (now : String) (df : List LRow) (row : Row)
    (md : Option Meta) (dp : Option String) (status : String) (em : Option String)
    {t p : String} (ht : row.episode_title = some t)
    (hp : row.podcast_title = some p)
    (hidx : findIdxFrom (keyPred t p) df = none) :
    update_metadata now df row md dp status em =
      df ++ [mkRecord now row md dp status em] := by
  rw [update_metadata_eq now df row md dp status em ht hp, hidx]

/-! ## C2 and C5: ledger upsert invariants -/

/-- Claim C2: the ledger keeps at most one entry per (episode title,
podcast title) identity under any upsert; a `completed` upsert overwrites
whatever entry exists for the identity (in particular failed or pending
ones); a `failed` upsert never overwrites an existing `completed` entry. -/
theorem ledger_upsert_invariants (now : String) (df : List LRow) (row : Row)
    (md : Option Meta) (dp : Option String) (em : Option String) (t p : String)
    (ht : row.episode_title = some t) (hp : row.podcast_title = some p) :
    ((∀ t' p', keyCount df t' p' ≤ 1) → ∀ status t' p',
       keyCount (update_metadata now df row md dp status em) t' p' ≤ 1) ∧
    (lookupKey df t p ≠ none →
       lookupKey (update_metadata now df row md dp "completed" em) t p =
         some (mkRecord now row md dp "completed" em)) ∧
    (∀ e, lookupKey df t p = some e → e.status = "completed" →
       update_metadata now df row md dp "failed" em = df) := by
  refine ⟨?_, ?_, ?_⟩
  · intro hinv status t' p'
    cases hidx : findIdxFrom (keyPred t p) df with
    | none =>
      rw [update_metadata_missing now df row md dp status em ht hp hidx]
      unfold keyCount
      rw [List.filter_append, List.length_append]
      cases hq : keyPred t' p' (mkRecord now row md dp status em) with
      | false => simpa [hq] using hinv t' p'
      | true =>
        rcases keyPred_true_iff.mp hq with ⟨he, hpp⟩
        rw [mkRecord_episode] at he
        rw [mkRecord_podcast] at hpp
        rw [ht] at he
        rw [hp] at hpp
        injection he with he
        injection hpp with hpp
        subst he; subst hpp
        have h0 : keyCount df t p = 0 := keyCount_zero_of_no_match hidx
        unfold keyCount at h0
        simp [hq, h0]
    | some i =>
      rw [update_metadata_found now df row md dp status em ht hp hidx]
      by_cases hcond : (status == "completed" || (df.getD i default).status == "failed") = true
      · rw [if_pos hcond]
        rcases findIdxFrom_bound hidx with ⟨hlen, hpi⟩
        have hfs := length_filter_set (keyPred t' p') df i
          (mkRecord now row md dp status em) hlen
        cases hq : keyPred t' p' (mkRecord now row md dp status em) with
        | false =>
          rw [hq] at hfs
          have := hinv t' p'
          unfold keyCount at this ⊢
          cases hq2 : keyPred t' p' (df.getD i default) <;>
            simp [hq2] at hfs <;> omega
        | true =>
          rcases keyPred_true_iff.mp hq with ⟨he, hpp⟩
          rw [mkRecord_episode] at he
          rw [mkRecord_podcast] at hpp
          rw [ht] at he
          rw [hp] at hpp
          injection he with he
          injection hpp with hpp
          subst he; subst hpp
          rw [hq, hpi] at hfs
          have := hinv t p
          unfold keyCount at this ⊢
          omega
      · rw [if_neg hcond]
        exact hinv t' p'
  · intro hne
    rcases Option.ne_none_iff_exists'.mp hne with ⟨e, he⟩
    rcases findIdxFrom_of_find? he with ⟨i, hidx, _⟩
    rw [update_metadata_found now df row md dp "completed" em ht hp hidx]
    rw [if_pos (by simp)]
    exact find?_set_of_findIdxFrom (keyPred_mkRecord ht hp now md dp "completed" em) hidx
  · intro e he hstatus
    rcases findIdxFrom_of_find? he with ⟨i, hidx, hget⟩
    rw [update_metadata_found now df row md dp "failed" em ht hp hidx]
    rw [if_neg (by rw [hget]; simp [hstatus])]

/-- Claim C5: upserting the same `(identity, completed)` record twice
yields exactly one ledger row for that identity, and the second upsert
changes nothing at all. -/
theorem ledger_upsert_idempotent (now : String) (df : List LRow) (row : Row)
    (md : Option Meta) (dp : Option String) (em : Option String) (t p : String)
    (ht : row.episode_title = some t) (hp : row.podcast_title = some p)
    (hcount : keyCount df t p ≤ 1) :
    update_metadata now (update_metadata now df row md dp "completed" em)
        row md dp "completed" em
      = update_metadata now df row md dp "completed" em ∧
    keyCount (update_metadata now df row md dp "completed" em) t p = 1 := by
  have hrec : keyPred t p (mkRecord now row md dp "completed" em) = true :=
    keyPred_mkRecord ht hp now md dp "completed" em
  cases hidx : findIdxFrom (keyPred t p) df with
  | none =>
    rw [update_metadata_missing now df row md dp "completed" em ht hp hidx]
    have hidx2 : findIdxFrom (keyPred t p)
        (df ++ [mkRecord now row md dp "completed" em]) = some df.length := by
      rw [findIdxFrom_append_one df (mkRecord now row md dp "completed" em), hidx, hrec]
      simp
    constructor
    · rw [update_metadata_found now (df ++ [mkRecord now row md dp "completed" em])
        row md dp "completed" em ht hp hidx2]
      rw [if_pos (by simp)]
      exact set_append_last df _ _
    · have h0 : keyCount df t p = 0 := keyCount_zero_of_no_match hidx
      unfold keyCount at h0 ⊢
      rw [List.filter_append, List.length_append]
      simp [hrec, h0]
  | some i =>
    rw [update_metadata_found now df row md dp "completed" em ht hp hidx]
    rw [if_pos (by simp)]
    rcases findIdxFrom_bound hidx with ⟨hlen, hpi⟩
    constructor
    · rw [update_metadata_found now (df.set i (mkRecord now row md dp "completed" em))
        row md dp "completed" em ht hp (findIdxFrom_set hrec hidx)]
      rw [if_pos (by simp)]
      exact List.set_set _ _ _ _
    · have hfs := length_filter_set (keyPred t p) df i
        (mkRecord now row md dp "completed" em) hlen
      rw [hrec, hpi] at hfs
      have hpos := filter_pos_of_findIdxFrom hidx
      unfold keyCount at hcount ⊢
      omega

/-- A concrete catalog row used by the witnesses. -/
def sampleRow : Row :=
  { candidate_name := some "jane doe"
    podcast_title := some "The Show"
    episode_title := some "Great Episode"
    date_posted := some "3/5/2024"
    hyperlink := some "https://example.com/page" }

/-- A ledger holding one failed entry for the sample row's identity. -/
def sampleFailedLedger : List LRow :=
  [mkRecord "2024-01-01T00:00:00" sampleRow none none "failed"
    (some "No audio URL found: Great Episode")]

/-- Witness for C2 at a concrete ledger with an existing failed entry. -/
theorem ledger_upsert_invariants_witness :
    ((∀ t' p', keyCount sampleFailedLedger t' p' ≤ 1) → ∀ status t' p',
       keyCount (update_metadata "N" sampleFailedLedger sampleRow none none status none)
         t' p' ≤ 1) ∧
    (lookupKey sampleFailedLedger "Great Episode" "The Show" ≠ none →
       lookupKey (update_metadata "N" sampleFailedLedger sampleRow none none "completed" none)
           "Great Episode" "The Show" =
         some (mkRecord "N" sampleRow none none "completed" none)) ∧
    (∀ e, lookupKey sampleFailedLedger "Great Episode" "The Show" = some e →
       e.status = "completed" →
       update_metadata "N" sampleFailedLedger sampleRow none none "failed" none =
         sampleFailedLedger) :=
  ledger_upsert_invariants "N" sampleFailedLedger sampleRow none none none
    "Great Episode" "The Show" rfl rfl

/-- Witness for C5 at the same concrete ledger. -/
theorem ledger_upsert_idempotent_witness :
    update_metadata "N"
        (update_metadata "N" sampleFailedLedger sampleRow none none "completed" none)
        sampleRow none none "completed" none
      = update_metadata "N" sampleFailedLedger sampleRow none none "completed" none ∧
    keyCount (update_metadata "N" sampleFailedLedger sampleRow none none "completed" none)
        "Great Episode" "The Show" = 1 :=
  ledger_upsert_idempotent "N" sampleFailedLedger sampleRow none none none
    "Great Episode" "The Show" rfl rfl (by decide)

/-! ## Filesystem model and the streaming download -/

/-- Substring helpers (Python `in` on strings). -/
def startsWithChars : List Char → List Char → Bool
  | [], _ => true
  | _ :: _, [] => false
  | a :: as, b :: bs => a == b && startsWithChars as bs

def containsChars (needle : List Char) : List Char → Bool
  | [] => needle.isEmpty
  | c :: rest => startsWithChars needle (c :: rest) || containsChars needle rest

/-- A flat filesystem: association of paths to file contents. -/
structure FS where
  files : List (String × String)
  deriving Repr, DecidableEq

def FS.read (fs : FS) (p : String) : Option String :=
  (fs.files.find? (fun kv => kv.1 == p)).map Prod.snd

def FS.pathExists (fs : FS) (p : String) : Bool :=
  (fs.read p).isSome

def FS.write (fs : FS) (p c : String) : FS :=
  ⟨(p, c) :: fs.files.filter (fun kv => kv.1 != p)⟩

def FS.erase (fs : FS) (p : String) : FS :=
  ⟨fs.files.filter (fun kv => kv.1 != p)⟩

/-- `shutil.rmtree(dir)`: drop every file under the directory. -/
def FS.removeTree (fs : FS) (dir : String) : FS :=
  ⟨fs.files.filter (fun kv => !(startsWithChars (dir ++ "/").toList kv.1.toList))⟩

/-- `response.raise_for_status()` raises for 4xx/5xx codes. -/
def raisesForStatus (status : Nat) : Bool :=
  400 ≤ status && status < 600

/-- The streaming download of download.py (lines 380-386 and 313-316):
`open(mp3_path, 'wb')` opens the FINAL canonical path directly and chunks
are written to it; a truncated stream leaves the partial content at that
path (the `with` block closes the file, nothing removes it) and raises
into the `except` clause.  Returns the filesystem, whether the download
completed, and the trace. -/
def directDownload (env : Env) (fs : FS) (audio_url mp3_path : String) :
    FS × Bool × List Ev :=
  match env.fetch audio_url with
  | NetResult.err => (fs, false, [Ev.fetchStream audio_url])
  | NetResult.ok r =>
    if raisesForStatus r.status then (fs, false, [Ev.fetchStream audio_url])
    else
      let fs2 := fs.write mp3_path (String.join r.chunks)
      if r.truncated then (fs2, false, [Ev.fetchStream audio_url])
      else (fs2, true, [Ev.fetchStream audio_url])

/-! ## `process_all` (download.py lines 339-405) -/

/-- Pipeline state threaded through the row loop. -/
structure PState where
  fs : FS
  ledger : List LRow
  trace : List Ev
  deriving Repr

/-- One iteration of the row loop of `PodcastDownloader.process_all`.
Rows with a missing episode title are skipped; if the canonical file
exists the hyperlink is re-fetched for metadata and the ledger is upserted
to `completed` (a raising fetch — including `session.get(nan)` — is caught
with no ledger write); otherwise the resolver runs and on success the
audio is streamed directly to the canonical path. -/
def processRow (env : Env) (now today outDir : String) (st : PState)
    (row : Row) : PState :=
  match row.episode_title with
  | none => st
  | some title =>
    let filename := format_filename today "applepodcasts" row.candidate_name
      row.podcast_title row.date_posted
    let mp3_path := outDir ++ "/" ++ filename ++ ".mp3"
    if st.fs.pathExists mp3_path then
      match row.hyperlink with
      | none => st
      | some h =>
        match env.fetch h with
        | NetResult.err => { st with trace := st.trace ++ [Ev.fetch h] }
        | NetResult.ok r =>
          let md := extract_metadata now (some h) r.text
          { st with
            ledger := update_metadata now st.ledger row md (some mp3_path) "completed" none
            trace := st.trace ++ [Ev.fetch h] }
    else
      let res := get_audio_url_with_retries env now row.hyperlink title 3
      let st1 := { st with trace := st.trace ++ res.2 }
      match res.1.1 with
      | some audio_url =>
        let dl := directDownload env st1.fs audio_url mp3_path
        if dl.2.1 then
          { fs := dl.1
            ledger := update_metadata now st1.ledger row res.1.2 (some mp3_path)
              "completed" none
            trace := st1.trace ++ dl.2.2 }
        else
          { fs := dl.1
            ledger := update_metadata now st1.ledger row res.1.2 none "failed"
              (some "Download error")
            trace := st1.trace ++ dl.2.2 }
      | none =>
        { st1 with
          ledger := update_metadata now st1.ledger row none none "failed"
            (some ("No audio URL found: " ++ title)) }

/-- `PodcastDownloader.process_all` over an in-memory catalog. -/
def process_all (env : Env) (now today outDir : String) (catalog : List Row)
    (st : PState) : PState :=
  catalog.foldl (processRow env now today outDir) st

/-! ## `retry_failed_downloads` (download.py lines 260-337) -/

/-- The four title variations tried for a failed entry (lines 294-299). -/
def episodeVariations (episode_title podcast_title : String) : List String :=
  [episode_title,
   pyStrip (String.mk ((splitOnChar '|' episode_title.toList).headD [])),
   joinSpace ((pySplit episode_title).take 3),
   podcast_title ++ " " ++ episode_title]

/-- The inner `for variation in episode_variations` loop (lines 301-324):
resolve with `retries=5`; on an audio URL, stream directly to `mp3_path`
and upsert `completed` on success (breaking the loop); a download
exception falls through to the next variation. -/
def tryVariations (env : Env) (now : String) (hyperlink : Option String)
    (row : Row) (mp3_path : String) : List String → PState → PState
  | [], st => st
  | v :: rest, st =>
    let res := get_audio_url_with_retries env now hyperlink v 5
    let st1 := { st with trace := st.trace ++ res.2 }
    match res.1.1 with
    | some audio_url =>
      let dl := directDownload env st1.fs audio_url mp3_path
      let st2 := { st1 with fs := dl.1, trace := st1.trace ++ dl.2.2 }
      if dl.2.1 then
        { st2 with
          ledger := update_metadata now st2.ledger row res.1.2 (some mp3_path)
            "completed" none }
      else tryVariations env now hyperlink row mp3_path rest st2
    | none => tryVariations env now hyperlink row mp3_path rest st1

/-- Pandas match of a failed ledger row against a master-catalog row. -/
def masterMatches (frow : LRow) (row : Row) : Bool :=
  sameKey row.episode_title frow.episode_title &&
    sameKey row.podcast_title frow.podcast_title

/-- Handling of one failed ledger entry within a retry pass (lines
275-326): find the first matching master row, try the title variations,
then sleep two seconds. -/
def retryRow (env : Env) (now today outDir : String) (master : List Row)
    (st : PState) (frow : LRow) : PState :=
  match master.find? (masterMatches frow) with
  | none => st
  | some row =>
    let filename := format_filename today "applepodcasts" row.candidate_name
      row.podcast_title row.date_posted
    let mp3_path := outDir ++ "/" ++ filename ++ ".mp3"
    let variations := episodeVariations (row.episode_title.getD "")
      (row.podcast_title.getD "")
    let st1 := tryVariations env now row.hyperlink row mp3_path variations st
    { st1 with trace := st1.trace ++ [Ev.sleep 2] }

/-- One retry pass over the snapshot of currently-failed entries. -/
def retryPass (env : Env) (now today outDir : String) (master : List Row)
    (st : PState) : PState :=
  (st.ledger.filter (fun r => r.status == "failed")).foldl
    (retryRow env now today outDir master) st

def countFailed (df : List LRow) : Nat :=
  (df.filter (fun r => r.status == "failed")).length

/-- The `while retry_count < max_retries` loop of
`retry_failed_downloads`: breaks before touching the master catalog when
no failed entries remain; breaks after a pass that clears all failures;
otherwise sleeps five seconds and continues.  Returns the failed count,
the final state, and the number of passes that processed entries. -/
def retryLoop (env : Env) (now today outDir : String) (master : List Row) :
    Nat → PState → Nat × PState × Nat
  | 0, st => (countFailed st.ledger, st, 0)
  | fuel + 1, st =>
    if countFailed st.ledger = 0 then (countFailed st.ledger, st, 0)
    else
      let st1 := retryPass env now today outDir master st
      if countFailed st1.ledger = 0 then (0, st1, 1)
      else
        let st2 := { st1 with trace := st1.trace ++ [Ev.sleep 5] }
        let r := retryLoop env now today outDir master fuel st2
        (r.1, r.2.1, r.2.2 + 1)

/-- `PodcastDownloader.retry_failed_downloads`. -/
def retry_failed_downloads (env : Env) (now today outDir : String)
    (master : List Row) (max_retries : Nat) (st : PState) :
    Nat × PState × Nat :=
  retryLoop env now today outDir master max_retries st

/-! ## The batch downloader (podcast_batch_downloader.py) -/

namespace Batch

/-- `clean_search_term` (podcast_batch_downloader.py lines 18-27); returns
the empty string for missing/non-string input. -/
def clean_search_term (text : Option String) : String :=
  match text with
  | none => ""
  | some t =>
    if t.toList.isEmpty then ""
    else
      let folded := (t.toList.map Char.toLower).filter (fun c => c.toNat < 128)
      let subbed := folded.map fun c =>
        if pyIsWord c || pyIsSpace c || c == '-' then c else ' '
      String.mk (stripWhile pyIsSpace (squeezeSpace subbed))

/-- Replace each maximal run of characters satisfying `p` by `rep`. -/
def collapseRuns (p : Char → Bool) (rep : Char) : Bool → List Char → List Char
  | _, [] => []
  | prev, c :: rest =>
    if p c then
      if prev then collapseRuns p rep true rest
      else rep :: collapseRuns p rep true rest
    else c :: collapseRuns p rep false rest

/-- `clean_filename` (lines 29-38). -/
def clean_filename (text : Option String) : String :=
  match text with
  | none => "unknown"
  | some t =>
    if t.toList.isEmpty then "unknown"
    else
      let folded := (t.toList.map Char.toLower).filter (fun c => c.toNat < 128)
      let s1 := folded.map fun c =>
        if pyIsWord c || pyIsSpace c || c == '-' then c else '_'
      let s2 := collapseRuns (fun c => c == '-' || pyIsSpace c) '_' false s1
      let s3 := collapseRuns (fun c => c == '_') '_' false s2
      String.mk (stripWhile (fun c => c == '_') s3)

/-- `format_filename` (lines 40-50); a `NaN` date raises at
`'/' in date_str` and the bare `except` falls back to today's date.  Note
the source cleans here as well. -/
def format_filename (today source : String)
    (candidate_name podcast_title : Option String)
    (date_str : Option String) : String :=
  let date_clean :=
    match date_str with
    | none => today
    | some s =>
      if s.toList.contains '/' then
        match parseSlashDate s with
        | some (y, m, d) => fmtYMD y m d
        | none => today
      else
        match parseCompactDate s with
        | some (y, m, d) => fmtYMD y m d
        | none => today
  clean_filename (some source) ++ "_" ++ clean_filename candidate_name ++ "_" ++
    clean_filename podcast_title ++ "_" ++ date_clean

/-- The six `audio_patterns` of `_get_audio_url` (lines 153-160). -/
def batchAudioPatterns : List (List RTok) :=
  [ lits "https://" ++ [gapQ] ++ lits ".mp3",
    lits "https://pdst.fm/" ++ [gapQ],
    lits "https://chrt.fm/" ++ [gapQ],
    lits "https://traffic.megaphone.fm/" ++ [gapQ],
    lits "https://dts.podtrac.com/" ++ [gapQ] ++ lits ".mp3",
    lits "https://" ++ [gapQ] ++ lits ".libsyn.com/" ++ [gapQ] ]

/-- `_get_audio_url` (lines 146-173): first pattern with matches wins and
its first match is cleaned; any exception yields `None`. -/
def get_audio_url (env : Env) (url : String) : Option String × List Ev :=
  match env.fetch url with
  | NetResult.err => (none, [Ev.fetch url])
  | NetResult.ok r =>
    if raisesForStatus r.status then (none, [Ev.fetch url])
    else
      match batchAudioPatterns.findSome?
          (fun pat => (findall false pat r.text).head?) with
      | some u0 => (some (pyCleanUrl u0), [Ev.fetch url])
      | none => (none, [Ev.fetch url])

/-- The exact-title loop of `_search_episode` (lines 194-201). -/
def searchExact (env : Env) (term : String) :
    List SearchResult → Option (String × String) × List Ev
  | [] => (none, [])
  | r :: rest =>
    if clean_search_term (some (r.trackName.getD "")) == term then
      match r.trackViewUrl with
      | some eu =>
        if eu.toList.isEmpty then searchExact env term rest
        else
          let g := get_audio_url env eu
          match g.1 with
          | some au => (some (eu, au), g.2)
          | none =>
            let rec0 := searchExact env term rest
            (rec0.1, g.2 ++ rec0.2)
      | none => searchExact env term rest
    else searchExact env term rest

/-- The substring-match loop (lines 204-210). -/
def searchSub (env : Env) (term : String) :
    List SearchResult → Option (String × String) × List Ev
  | [] => (none, [])
  | r :: rest =>
    if containsChars term.toList
        (clean_search_term (some (r.trackName.getD ""))).toList then
      match r.trackViewUrl with
      | some eu =>
        if eu.toList.isEmpty then searchSub env term rest
        else
          let g := get_audio_url env eu
          match g.1 with
          | some au => (some (eu, au), g.2)
          | none =>
            let rec0 := searchSub env term rest
            (rec0.1, g.2 ++ rec0.2)
      | none => searchSub env term rest
    else searchSub env term rest

/-- `_search_episode` (lines 175-216): Apple-Podcasts hyperlinks are tried
directly; otherwise the iTunes search runs, preferring exact normalized
title matches over substring matches; all failures collapse to
`(None, None)`. -/
def search_episode (env : Env) (episode_title : String)
    (hyperlink : Option String) : (Option String × Option String) × List Ev :=
  let step1 : Option (Option String × Option String) × List Ev :=
    match hyperlink with
    | some h =>
      if containsChars "podcasts.apple.com".toList h.toList then
        let g := get_audio_url env h
        match g.1 with
        | some au => (some (some h, some au), g.2)
        | none => (none, g.2)
      else (none, [])
    | none => (none, [])
  match step1.1 with
  | some res => (res, step1.2)
  | none =>
    let term := clean_search_term (some episode_title)
    let su := searchUrl term
    match env.fetch su with
    | NetResult.err => ((none, none), step1.2 ++ [Ev.fetch su])
    | NetResult.ok sr =>
      if raisesForStatus sr.status then ((none, none), step1.2 ++ [Ev.fetch su])
      else
        match sr.json with
        | none => ((none, none), step1.2 ++ [Ev.fetch su])
        | some results =>
          let ex := searchExact env term results
          match ex.1 with
          | some (eu, au) => ((some eu, some au), step1.2 ++ [Ev.fetch su] ++ ex.2)
          | none =>
            let sb := searchSub env term results
            match sb.1 with
            | some (eu, au) =>
              ((some eu, some au), step1.2 ++ [Ev.fetch su] ++ ex.2 ++ sb.2)
            | none => ((none, none), step1.2 ++ [Ev.fetch su] ++ ex.2 ++ sb.2)

/-- One row of the tracker's results list (the timestamp and on-disk file
size columns are environment noise and omitted). -/
structure TrackEntry where
  episode_title : Option String
  podcast_title : Option String
  candidate_name : Option String
  date_posted : Option String
  status : String
  error_message : String
  output_path : String
  deriving Repr, DecidableEq

structure BState where
  fs : FS
  results : List TrackEntry
  trace : List Ev
  deriving Repr

/-- `DownloadTracker.add_result`. -/
def addResult (row : Row) (status error_message output_path : String)
    (st : BState) : BState :=
  { st with results := st.results ++
      [⟨row.episode_title, row.podcast_title, row.candidate_name, row.date_posted,
        status, error_message, output_path⟩] }

/-- `_download_episode` (lines 218-273): skip files recorded at startup;
resolve; stream the audio to `temp_dir/filename`; `shutil.move` it to the
output directory only after the stream completed without error; any
exception is recorded as FAILED, leaving at most a partial temp file and
never a file at the final canonical path. -/
def download_episode (env : Env) (today outDir tempDir : String)
    (existing : List String) (st : BState) (row : Row) : BState × Bool :=
  let filename := format_filename today "applepodcasts" row.candidate_name
    row.podcast_title row.date_posted ++ ".mp3"
  let final_path := outDir ++ "/" ++ filename
  let temp_path := tempDir ++ "/" ++ filename
  if existing.contains filename then
    (addResult row "SKIPPED" "Already downloaded" final_path st, true)
  else
    match row.hyperlink with
    | none => (addResult row "FAILED" "Missing URL" "" st, false)
    | some _ =>
      let se := search_episode env (row.episode_title.getD "") row.hyperlink
      let st1 := { st with trace := st.trace ++ se.2 }
      match se.1.2 with
      | none => (addResult row "FAILED" "No audio URL found" "" st1, false)
      | some audio_url =>
        match env.fetch audio_url with
        | NetResult.err =>
          (addResult row "FAILED" "stream error" ""
            { st1 with trace := st1.trace ++ [Ev.fetchStream audio_url] }, false)
        | NetResult.ok r =>
          let st2 := { st1 with trace := st1.trace ++ [Ev.fetchStream audio_url] }
          if raisesForStatus r.status then
            (addResult row "FAILED" "bad status" "" st2, false)
          else
            let fs2 := st2.fs.write temp_path (String.join r.chunks)
            if r.truncated then
              (addResult row "FAILED" "stream truncated" ""
                { st2 with fs := fs2 }, false)
            else
              let fs3 := (fs2.erase temp_path).write final_path (String.join r.chunks)
              (addResult row "SUCCESS" "" final_path { st2 with fs := fs3 }, true)

/-- One iteration of the batch `process_all` row loop (lines 281-286). -/
def processRowB (env : Env) (today outDir tempDir : String)
    (existing : List String) (st : BState) (row : Row) : BState :=
  match row.episode_title with
  | none => st
  | some _ => (download_episode env today outDir tempDir existing st row).1

/-- `PodcastBatchDownloader.process_all` (lines 275-292): iterate rows,
then remove the whole temp directory in the `finally` clause. -/
def process_all (env : Env) (today outDir tempDir : String)
    (existing : List String) (catalog : List Row) (st : BState) : BState :=
  let st1 := catalog.foldl (processRowB env today outDir tempDir existing) st
  { st1 with fs := st1.fs.removeTree tempDir }

end Batch

/-! ## Filesystem lemmas -/

theorem find?_filter_ne {q p : String} (hqp : q ≠ p) :
    ∀ (l : List (String × String)),
      (l.filter (fun kv => kv.1 != p)).find? (fun kv => kv.1 == q) =
        l.find? (fun kv => kv.1 == q) := by
  intro l
  induction l with
  | nil => rfl
  | cons kv rest ih =>
    rw [List.filter_cons]
    by_cases hk : kv.1 = p
    · rw [if_neg (by simp [hk])]
      rw [ih]
      have hkq : (kv.1 == q) = false := by
        rw [hk]
        exact beq_false_of_ne fun he => hqp he.symm
      simp [List.find?, hkq]
    · rw [if_pos (by simp [hk])]
      by_cases hgq : (kv.1 == q) = true <;> simp [List.find?, hgq, ih]

theorem find?_filter_self (p : String) :
    ∀ (l : List (String × String)),
      (l.filter (fun kv => kv.1 != p)).find? (fun kv => kv.1 == p) = none := by
  intro l
  induction l with
  | nil => rfl
  | cons kv rest ih =>
    rw [List.filter_cons]
    by_cases hk : kv.1 = p
    · rw [if_neg (by simp [hk])]
      exact ih
    · rw [if_pos (by simp [hk])]
      simp [List.find?, beq_false_of_ne hk, ih]

theorem FS.read_write_self (fs : FS) (p c : String) :
    (fs.write p c).read p = some c := by
  simp [FS.read, FS.write, List.find?]

theorem FS.read_write_ne {fs : FS} {p q : String} (h : q ≠ p) {c : String} :
    (fs.write p c).read q = fs.read q := by
  have hpq : ((p, c).1 == q) = false := beq_false_of_ne fun he => h he.symm
  simp only [FS.read, FS.write, List.find?, hpq, find?_filter_ne h]

theorem FS.read_erase_self (fs : FS) (p : String) :
    (fs.erase p).read p = none := by
  simp only [FS.read, FS.erase, find?_filter_self, Option.map_none']

theorem startsWithChars_append : ∀ (xs ys : List Char),
    startsWithChars xs (xs ++ ys) = true := by
  intro xs ys
  induction xs with
  | nil => rfl
  | cons a as ih => simp [startsWithChars, ih]

theorem FS.read_removeTree_under (fs : FS) {dir p : String}
    (h : startsWithChars (dir ++ "/").toList p.toList = true) :
    (fs.removeTree dir).read p = none := by
  have hall : ∀ (l : List (String × String)),
      (l.filter (fun kv =>
        !(startsWithChars (dir ++ "/").toList kv.1.toList))).find?
          (fun kv => kv.1 == p) = none := by
    intro l
    induction l with
    | nil => rfl
    | cons kv rest ih =>
      rw [List.filter_cons]
      by_cases hk : kv.1 = p
      · have hkv : startsWithChars (dir ++ "/").toList kv.1.toList = true := by
          rw [hk]; exact h
        rw [if_neg (by rw [hkv]; decide)]
        exact ih
      · by_cases hs : startsWithChars (dir ++ "/").toList kv.1.toList = true
        · rw [if_neg (by rw [hs]; decide)]
          exact ih
        · have hs2 : startsWithChars (dir ++ "/").toList kv.1.toList = false := by
            cases hb : startsWithChars (dir ++ "/").toList kv.1.toList
            · rfl
            · exact absurd hb hs
          rw [if_pos (by rw [hs2]; decide)]
          rw [List.find?_cons_of_neg _ (by simp [beq_false_of_ne hk])]
          exact ih
  simp only [FS.read, FS.removeTree, hall fs.files, Option.map_none']

/-! ## C1: temp-then-rename versus direct write -/

/-- Claim C1 (amended): the batch downloader streams to a temp path and
moves the file to the final canonical path only after the stream completes
without error, so a truncated stream changes nothing at the final path and
leaves only the partial temp file, which the batch `process_all` cleanup
removes; `download.py`, by contrast, streams directly to the final
canonical path, so there a truncated stream leaves the partial content at
the final path. -/
theorem download_atomicity :
    (∀ (env : Env) (today outDir tempDir : String) (existing : List String)
       (st : Batch.BState) (row : Row) (h au : String) (r : Resp) (fn : String),
       fn = Batch.format_filename today "applepodcasts" row.candidate_name
         row.podcast_title row.date_posted ++ ".mp3" →
       existing.contains fn = false →
       row.hyperlink = some h →
       (Batch.search_episode env (row.episode_title.getD "") (some h)).1.2 = some au →
       env.fetch au = NetResult.ok r →
       raisesForStatus r.status = false →
       tempDir ++ "/" ++ fn ≠ outDir ++ "/" ++ fn →
       ((r.truncated = true →
          (Batch.download_episode env today outDir tempDir existing st row).1.fs.read
              (outDir ++ "/" ++ fn) = st.fs.read (outDir ++ "/" ++ fn) ∧
          (Batch.download_episode env today outDir tempDir existing st row).1.fs.read
              (tempDir ++ "/" ++ fn) = some (String.join r.chunks) ∧
          (Batch.download_episode env today outDir tempDir existing st row).2 = false) ∧
        (r.truncated = false →
          (Batch.download_episode env today outDir tempDir existing st row).1.fs.read
              (outDir ++ "/" ++ fn) = some (String.join r.chunks) ∧
          (Batch.download_episode env today outDir tempDir existing st row).1.fs.read
              (tempDir ++ "/" ++ fn) = none ∧
          (Batch.download_episode env today outDir tempDir existing st row).2 = true))) ∧
    (∀ (env : Env) (today outDir tempDir : String) (existing : List String)
       (catalog : List Row) (st : Batch.BState) (f : String),
       (Batch.process_all env today outDir tempDir existing catalog st).fs.read
         (tempDir ++ "/" ++ f) = none) ∧
    (∀ (env : Env) (fs : FS) (au mp3_path : String) (r : Resp),
       env.fetch au = NetResult.ok r → raisesForStatus r.status = false →
       r.truncated = true →
       (directDownload env fs au mp3_path).1.read mp3_path =
         some (String.join r.chunks) ∧
       (directDownload env fs au mp3_path).2.1 = false) := by
  refine ⟨?_, ?_, ?_⟩
  · intro env today outDir tempDir existing st row h au r fn hfn hex hh hse hfetch hrs hne
    subst hfn
    have hne2 : outDir ++ "/" ++ (Batch.format_filename today "applepodcasts"
        row.candidate_name row.podcast_title row.date_posted ++ ".mp3") ≠
      tempDir ++ "/" ++ (Batch.format_filename today "applepodcasts"
        row.candidate_name row.podcast_title row.date_posted ++ ".mp3") :=
      fun he => hne he.symm
    have hex2 : ¬ (Batch.format_filename today "applepodcasts" row.candidate_name
        row.podcast_title row.date_posted ++ ".mp3") ∈ existing := by
      simpa using hex
    constructor
    · intro htr
      refine ⟨?_, ?_, ?_⟩ <;>
        simp [Batch.download_episode, Batch.addResult, hex2, hh, hse, hfetch, hrs,
          htr, FS.read_write_self, FS.read_write_ne hne2]
    · intro htr
      refine ⟨?_, ?_, ?_⟩ <;>
        simp [Batch.download_episode, Batch.addResult, hex2, hh, hse, hfetch, hrs,
          htr, FS.read_write_self, FS.read_write_ne hne, FS.read_erase_self]
  · intro env today outDir tempDir existing catalog st f
    unfold Batch.process_all
    exact FS.read_removeTree_under _
      (by rw [show (tempDir ++ "/" ++ f).toList = (tempDir ++ "/").toList ++ f.toList
            from String.data_append _ _]
          exact startsWithChars_append _ _)
  · intro env fs au mp3_path r hfetch hrs htr
    simp [directDownload, hfetch, hrs, htr, FS.read_write_self]

/-- The hyperlinked page and the truncated audio stream used by the C1
counterexample and witness. -/
def truncEnv : Env := ⟨fun u =>
  if u = "https://example.com/page" then
    NetResult.ok ⟨200, "src=\"https://a.mp3\"", none, [], false⟩
  else if u = "https://podcasts.apple.com/ep1" then
    NetResult.ok ⟨200, "src=\"https://a.mp3\"", none, [], false⟩
  else if u = "https://a.mp3" then
    NetResult.ok ⟨200, "", none, ["AB", "CD"], true⟩
  else NetResult.ok ⟨404, "", none, [], false⟩⟩

/-- Counterexample to claim C1 as stated: `download.py`'s `process_all`
on a row whose audio stream is truncated mid-download leaves the partial
content (`"AB" ++ "CD"` of a longer stream) at the final canonical path
and records the row as failed. -/
theorem download_partial_file_counterexample :
    (process_all truncEnv "N" "20250101" "out" [sampleRow]
        ⟨⟨[]⟩, [], []⟩).fs.read
      "out/applepodcasts_jane doe_the show_20240305.mp3" = some "ABCD" ∧
    countFailed (process_all truncEnv "N" "20250101" "out" [sampleRow]
        ⟨⟨[]⟩, [], []⟩).ledger = 1 := by
  refine ⟨by decide, by decide⟩

/-- A row resolved through its Apple-Podcasts hyperlink, for the C1
witness. -/
def batchRow : Row :=
  { candidate_name := some "jane doe"
    podcast_title := some "The Show"
    episode_title := some "Great Episode"
    date_posted := some "3/5/2024"
    hyperlink := some "https://podcasts.apple.com/ep1" }

/-- Witness for C1's amended theorem on a concrete truncated download. -/
theorem download_atomicity_witness :
    ((⟨200, "", none, ["AB", "CD"], true⟩ : Resp).truncated = true →
      (Batch.download_episode truncEnv "20250101" "out" "tmp" [] ⟨⟨[]⟩, [], []⟩
          batchRow).1.fs.read
        ("out" ++ "/" ++ (Batch.format_filename "20250101" "applepodcasts"
          batchRow.candidate_name batchRow.podcast_title batchRow.date_posted ++ ".mp3")) =
        (⟨[]⟩ : FS).read ("out" ++ "/" ++ (Batch.format_filename "20250101" "applepodcasts"
          batchRow.candidate_name batchRow.podcast_title batchRow.date_posted ++ ".mp3")) ∧
      (Batch.download_episode truncEnv "20250101" "out" "tmp" [] ⟨⟨[]⟩, [], []⟩
          batchRow).1.fs.read
        ("tmp" ++ "/" ++ (Batch.format_filename "20250101" "applepodcasts"
          batchRow.candidate_name batchRow.podcast_title batchRow.date_posted ++ ".mp3")) =
        some (String.join ["AB", "CD"]) ∧
      (Batch.download_episode truncEnv "20250101" "out" "tmp" [] ⟨⟨[]⟩, [], []⟩
          batchRow).2 = false) ∧
    ((⟨200, "", none, ["AB", "CD"], true⟩ : Resp).truncated = false →
      (Batch.download_episode truncEnv "20250101" "out" "tmp" [] ⟨⟨[]⟩, [], []⟩
          batchRow).1.fs.read
        ("out" ++ "/" ++ (Batch.format_filename "20250101" "applepodcasts"
          batchRow.candidate_name batchRow.podcast_title batchRow.date_posted ++ ".mp3")) =
        some (String.join ["AB", "CD"]) ∧
      (Batch.download_episode truncEnv "20250101" "out" "tmp" [] ⟨⟨[]⟩, [], []⟩
          batchRow).1.fs.read
        ("tmp" ++ "/" ++ (Batch.format_filename "20250101" "applepodcasts"
          batchRow.candidate_name batchRow.podcast_title batchRow.date_posted ++ ".mp3")) =
        none ∧
      (Batch.download_episode truncEnv "20250101" "out" "tmp" [] ⟨⟨[]⟩, [], []⟩
          batchRow).2 = true) :=
  download_atomicity.1 truncEnv "20250101" "out" "tmp" [] ⟨⟨[]⟩, [], []⟩ batchRow
    "https://podcasts.apple.com/ep1" "https://a.mp3" ⟨200, "", none, ["AB", "CD"], true⟩
    (Batch.format_filename "20250101" "applepodcasts" batchRow.candidate_name
      batchRow.podcast_title batchRow.date_posted ++ ".mp3")
    rfl (by decide) rfl (by decide) (by decide) (by decide) (by decide)

/-! ## C9: `retry_failed_downloads` termination behavior -/

theorem retryLoop_zero_failed (env : Env) (now today outDir : String)
    (master : List Row) :
    ∀ (fuel : Nat) (st : PState), countFailed st.ledger = 0 →
      retryLoop env now today outDir master fuel st = (0, st, 0) := by
  intro fuel st h
  cases fuel with
  | zero => simp [retryLoop, h]
  | succ k => simp [retryLoop, h]

theorem retryLoop_count (env : Env) (now today outDir : String)
    (master : List Row) :
    ∀ (fuel : Nat) (st : PState),
      (retryLoop env now today outDir master fuel st).1 =
        countFailed (retryLoop env now today outDir master fuel st).2.1.ledger := by
  intro fuel
  induction fuel with
  | zero => intro st; rfl
  | succ k ih =>
    intro st
    by_cases h : countFailed st.ledger = 0
    · simp [retryLoop, h]
    · unfold retryLoop
      rw [if_neg h]
      by_cases h1 : countFailed (retryPass env now today outDir master st).ledger = 0
      · simp [h1]
      · simp only [h1, ite_false]
        exact ih _

theorem retryLoop_passes (env : Env) (now today outDir : String)
    (master : List Row) :
    ∀ (fuel : Nat) (st : PState),
      (retryLoop env now today outDir master fuel st).2.2 ≤ fuel := by
  intro fuel
  induction fuel with
  | zero => intro st; exact Nat.le_refl 0
  | succ k ih =>
    intro st
    by_cases h : countFailed st.ledger = 0
    · simp [retryLoop, h]
    · unfold retryLoop
      rw [if_neg h]
      by_cases h1 : countFailed (retryPass env now today outDir master st).ledger = 0
      · simp [h1]
      · rw [if_neg h1]
        have := ih { retryPass env now today outDir master st with
          trace := (retryPass env now today outDir master st).trace ++ [Ev.sleep 5] }
        simpa using Nat.succ_le_succ this

/-- Claim C9: with zero failed ledger entries, `retry_failed_downloads`
returns `0` immediately — the state (and so the event trace: no network
call, no sleep) is untouched and no pass runs — for any pass budget; in
general it runs at most `maxPasses` entry-processing passes, stops as
soon as no failed entries remain, and returns the count of entries still
failed in the final ledger. -/
theorem retry_failed_spec (env : Env) (now today outDir : String)
    (master : List Row) :
    (∀ (max_retries : Nat) (st : PState), countFailed st.ledger = 0 →
       retry_failed_downloads env now today outDir master max_retries st = (0, st, 0)) ∧
    (∀ (max_retries : Nat) (st : PState),
       (retry_failed_downloads env now today outDir master max_retries st).1 =
         countFailed
           (retry_failed_downloads env now today outDir master max_retries st).2.1.ledger) ∧
    (∀ (max_retries : Nat) (st : PState),
       (retry_failed_downloads env now today outDir master max_retries st).2.2 ≤
         max_retries) :=
  ⟨fun m st h => retryLoop_zero_failed env now today outDir master m st h,
   fun m st => retryLoop_count env now today outDir master m st,
   fun m st => retryLoop_passes env now today outDir master m st⟩

/-- Witness for C9 on a ledger whose only entry is completed. -/
theorem retry_failed_spec_witness :
    retry_failed_downloads errEnv "N" "20250101" "out" [sampleRow] 2
        ⟨⟨[]⟩, [mkRecord "N" sampleRow none none "completed" none], []⟩ =
      (0, ⟨⟨[]⟩, [mkRecord "N" sampleRow none none "completed" none], []⟩, 0) :=
  (retry_failed_spec errEnv "N" "20250101" "out" [sampleRow]).1 2
    ⟨⟨[]⟩, [mkRecord "N" sampleRow none none "completed" none], []⟩ (by decide)

/-! ## C6: existing files are never re-downloaded -/

/-- The canonical output path `process_all` computes for a row. -/
def canonicalPath (today outDir : String) (row : Row) : String :=
  outDir ++ "/" ++ format_filename today "applepodcasts" row.candidate_name
    row.podcast_title row.date_posted ++ ".mp3"

theorem processRow_no_download (env : Env) (now today outDir : String)
    (st : PState) (row : Row)
    (hex : row.episode_title = none ∨
      st.fs.pathExists (canonicalPath today outDir row) = true) :
    (processRow env now today outDir st row).fs = st.fs ∧
    ∃ extra, (processRow env now today outDir st row).trace = st.trace ++ extra ∧
      ∀ u, Ev.fetchStream u ∉ extra := by
  cases ht : row.episode_title with
  | none =>
    refine ⟨by simp [processRow, ht], [], by simp [processRow, ht], by simp⟩
  | some t =>
    have hpath : st.fs.pathExists (canonicalPath today outDir row) = true := by
      rcases hex with hex | hex
      · rw [ht] at hex; cases hex
      · exact hex
    rw [show st.fs.pathExists (canonicalPath today outDir row) =
      st.fs.pathExists (outDir ++ "/" ++ format_filename today "applepodcasts"
        row.candidate_name row.podcast_title row.date_posted ++ ".mp3") from rfl] at hpath
    cases hh : row.hyperlink with
    | none =>
      refine ⟨by simp [processRow, ht, hpath, hh], [], by simp [processRow, ht, hpath, hh], by simp⟩
    | some h =>
      cases hf : env.fetch h with
      | err =>
        refine ⟨by simp [processRow, ht, hpath, hh, hf], [Ev.fetch h],
          by simp [processRow, ht, hpath, hh, hf], ?_⟩
        intro u hu
        simp at hu
      | ok r =>
        refine ⟨by simp [processRow, ht, hpath, hh, hf], [Ev.fetch h],
          by simp [processRow, ht, hpath, hh, hf], ?_⟩
        intro u hu
        simp at hu

/-- Claim C6: when every titled catalog row's canonical file already
exists, `process_all` leaves the filesystem unchanged and performs no
streaming (download) fetch; a row with no episode title is skipped with no
effect at all; and an existing-file row with a fetchable hyperlink has its
ledger entry upserted to `completed` with freshly extracted metadata. -/
theorem process_all_skips_existing (env : Env) (now today outDir : String) :
    (∀ (catalog : List Row) (st : PState),
      (∀ row ∈ catalog, row.episode_title = none ∨
        st.fs.pathExists (canonicalPath today outDir row) = true) →
      (process_all env now today outDir catalog st).fs = st.fs ∧
      ∃ extra, (process_all env now today outDir catalog st).trace = st.trace ++ extra ∧
        ∀ u, Ev.fetchStream u ∉ extra) ∧
    (∀ (st : PState) (row : Row), row.episode_title = none →
      processRow env now today outDir st row = st) ∧
    (∀ (st : PState) (row : Row) (t h : String) (r : Resp),
      row.episode_title = some t → row.hyperlink = some h →
      st.fs.pathExists (canonicalPath today outDir row) = true →
      env.fetch h = NetResult.ok r →
      (processRow env now today outDir st row).ledger =
        update_metadata now st.ledger row (extract_metadata now (some h) r.text)
          (some (canonicalPath today outDir row)) "completed" none) := by
  refine ⟨?_, ?_, ?_⟩
  · intro catalog
    induction catalog with
    | nil =>
      intro st _
      exact ⟨rfl, [], by simp [process_all], by simp⟩
    | cons row rest ih =>
      intro st hall
      have hrow := processRow_no_download env now today outDir st row
        (hall row (List.mem_cons_self row rest))
      rcases hrow with ⟨hfs, extra1, htr1, hns1⟩
      have hall2 : ∀ r ∈ rest, r.episode_title = none ∨
          (processRow env now today outDir st row).fs.pathExists
            (canonicalPath today outDir r) = true := by
        intro r hr
        rw [hfs]
        exact hall r (List.mem_cons_of_mem row hr)
      have hrest := ih (processRow env now today outDir st row) hall2
      rcases hrest with ⟨hfs2, extra2, htr2, hns2⟩
      refine ⟨?_, extra1 ++ extra2, ?_, ?_⟩
      · rw [show process_all env now today outDir (row :: rest) st =
          process_all env now today outDir rest (processRow env now today outDir st row)
          from rfl, hfs2, hfs]
      · rw [show process_all env now today outDir (row :: rest) st =
          process_all env now today outDir rest (processRow env now today outDir st row)
          from rfl, htr2, htr1, List.append_assoc]
      · intro u hu
        rcases List.mem_append.mp hu with hu | hu
        · exact hns1 u hu
        · exact hns2 u hu
  · intro st row ht
    simp [processRow, ht]
  · intro st row t h r ht hh hpath hf
    rw [show st.fs.pathExists (canonicalPath today outDir row) =
      st.fs.pathExists (outDir ++ "/" ++ format_filename today "applepodcasts"
        row.candidate_name row.podcast_title row.date_posted ++ ".mp3") from rfl] at hpath
    simp [processRow, ht, hh, hpath, hf, canonicalPath]

/-- A catalog row with no episode title. -/
def sampleRowNoTitle : Row :=
  { candidate_name := some "jane doe"
    podcast_title := some "The Show"
    episode_title := none
    date_posted := some "3/5/2024"
    hyperlink := some "https://example.com/page" }

/-- An environment serving a plain HTML page for every URL. -/
def pageEnv : Env := ⟨fun _ => NetResult.ok ⟨200, "<title>x</title>", none, [], false⟩⟩

/-- A pipeline state whose filesystem already holds the sample row's
canonical file. -/
def stExisting : PState :=
  ⟨⟨[("out/applepodcasts_jane doe_the show_20240305.mp3", "X")]⟩, [], []⟩

/-- Witness for C6 at a concrete catalog, filesystem and environment. -/
theorem process_all_skips_existing_witness :
    ((process_all pageEnv "N" "20250101" "out" [sampleRow] stExisting).fs = stExisting.fs ∧
     ∃ extra, (process_all pageEnv "N" "20250101" "out" [sampleRow] stExisting).trace =
       stExisting.trace ++ extra ∧ ∀ u, Ev.fetchStream u ∉ extra) ∧
    processRow pageEnv "N" "20250101" "out" stExisting sampleRowNoTitle = stExisting ∧
    (processRow pageEnv "N" "20250101" "out" stExisting sampleRow).ledger =
      update_metadata "N" stExisting.ledger sampleRow
        (extract_metadata "N" (some "https://example.com/page") "<title>x</title>")
        (some (canonicalPath "20250101" "out" sampleRow)) "completed" none :=
  ⟨(process_all_skips_existing pageEnv "N" "20250101" "out").1 [sampleRow] stExisting
     (by intro row hrow; simp at hrow; subst hrow; right; decide),
   (process_all_skips_existing pageEnv "N" "20250101" "out").2.1 stExisting
     sampleRowNoTitle rfl,
   (process_all_skips_existing pageEnv "N" "20250101" "out").2.2 stExisting sampleRow
     "Great Episode" "https://example.com/page" ⟨200, "<title>x</title>", none, [], false⟩
     rfl rfl (by decide) rfl⟩

/-! ## C3 and C4: resolver retry, backoff and query relaxation -/

/-- An environment in which every network call raises a transport error. -/
def errEnv : Env := ⟨fun _ => NetResult.err⟩

/-- An environment in which every network call returns HTTP 404 (an
ordinary miss: no exception, no candidate). -/
def missEnv : Env := ⟨fun _ => NetResult.ok ⟨404, "", none, [], false⟩⟩

/-- Claim C3 (amended): with `maxAttempts = 3` and every network call
failing at transport level, the resolver performs exactly 3 fetches of the
hyperlink with strictly increasing backoff sleeps `2 ^ 0 = 1` and
`2 ^ 1 = 2` seconds after the two non-final attempts, then returns
`(None, None)`.  On ordinary misses (non-200 responses, no exception) it
instead sleeps the linearly increasing `1 + attemptIndex` seconds after
every attempt — including after the final one, not only between
attempts. -/
theorem resolver_retry_backoff :
    (∀ (env : Env) (now u episode_title : String),
      (∀ s, env.fetch s = NetResult.err) →
      urlInvalid (some u) = false →
      get_audio_url_with_retries env now (some u) episode_title 3 =
        ((none, none),
         [Ev.fetch u, Ev.sleep 1, Ev.fetch u, Ev.sleep 2, Ev.fetch u])) ∧
    (∀ (env : Env) (now u episode_title : String),
      (∀ s, ∃ r, env.fetch s = NetResult.ok r ∧ r.status ≠ 200) →
      urlInvalid (some u) = false →
      get_audio_url_with_retries env now (some u) episode_title 3 =
        ((none, none),
         [Ev.fetch u, Ev.fetch (searchUrl (relaxedSearchTerm episode_title 0)),
          Ev.sleep 1, Ev.fetch u,
          Ev.fetch (searchUrl (relaxedSearchTerm episode_title 1)), Ev.sleep 2,
          Ev.fetch u, Ev.sleep 3])) := by
  constructor
  · intro env now u episode_title henv hv
    unfold get_audio_url_with_retries
    rw [if_neg (by simp [hv])]
    rw [show List.range 3 = [0, 1, 2] from rfl]
    simp [gaLoop, henv]
  · intro env now u episode_title henv hv
    rcases henv u with ⟨r0, hr0, hs0⟩
    rcases henv (searchUrl (relaxedSearchTerm episode_title 0)) with ⟨q0, hq0, hqs0⟩
    rcases henv (searchUrl (relaxedSearchTerm episode_title 1)) with ⟨q1, hq1, hqs1⟩
    unfold get_audio_url_with_retries
    rw [if_neg (by simp [hv])]
    rw [show List.range 3 = [0, 1, 2] from rfl]
    simp [gaLoop, gaSearchStep, hr0, hs0, hq0, hqs0, hq1, hqs1]

/-- Witness for C3's theorem at the concrete environments. -/
theorem resolver_retry_backoff_witness :
    get_audio_url_with_retries errEnv "T" (some "https://x") "alpha beta gamma delta" 3 =
      ((none, none),
       [Ev.fetch "https://x", Ev.sleep 1, Ev.fetch "https://x", Ev.sleep 2,
        Ev.fetch "https://x"]) ∧
    get_audio_url_with_retries missEnv "T" (some "https://x") "alpha beta gamma delta" 3 =
      ((none, none),
       [Ev.fetch "https://x",
        Ev.fetch (searchUrl (relaxedSearchTerm "alpha beta gamma delta" 0)),
        Ev.sleep 1, Ev.fetch "https://x",
        Ev.fetch (searchUrl (relaxedSearchTerm "alpha beta gamma delta" 1)),
        Ev.sleep 2, Ev.fetch "https://x", Ev.sleep 3]) :=
  ⟨resolver_retry_backoff.1 errEnv "T" "https://x" "alpha beta gamma delta"
     (fun _ => rfl) (by decide),
   resolver_retry_backoff.2 missEnv "T" "https://x" "alpha beta gamma delta"
     (fun _ => ⟨⟨404, "", none, [], false⟩, rfl, by decide⟩) (by decide)⟩

/-- Counterexample to C3 as stated: on an all-miss run the event trace
ends with a sleep (of `1 + 2 = 3` seconds) after the final attempt, so the
linear sleeps are not only "between attempts". -/
theorem resolver_sleep_after_final_attempt :
    ((get_audio_url_with_retries missEnv "T" (some "https://x")
        "alpha beta gamma delta" 3).2).getLast? = some (Ev.sleep 3) := by decide

/-- Claim C4: at the first search attempt the code relaxes the query to
`words[:-(0)] = []`, i.e. it searches with the empty string instead of the
full cleaned title; attempts 1 and 2 drop one and two trailing words as
the claim states.  The trace of an all-404 run indeed contains a search
fetch with an empty `term=`. -/
theorem relaxed_search_term_attempt_zero_bug :
    relaxedSearchTerm "Alpha Beta Gamma Delta" 0 = "" ∧
    relaxedSearchTerm "Alpha Beta Gamma Delta" 1 = "alpha beta gamma" ∧
    relaxedSearchTerm "Alpha Beta Gamma Delta" 2 = "alpha beta" ∧
    ((get_audio_url_with_retries missEnv "T" (some "https://x")
        "Alpha Beta Gamma Delta" 3).2).contains (Ev.fetch (searchUrl "")) = true := by
  decide

/-! ## C7 and C10: extractor structure -/

theorem dedupAppend_cons (l : List String) (m : String) (rest : List String) :
    dedupAppend l (m :: rest) =
      dedupAppend (if l.contains (pyCleanUrl m) then l else l ++ [pyCleanUrl m]) rest := rfl

theorem dedupAppend_subset : ∀ (ms l : List String), l ⊆ dedupAppend l ms := by
  intro ms
  induction ms with
  | nil => intro l; exact List.Subset.refl l
  | cons m rest ih =>
    intro l
    rw [dedupAppend_cons]
    refine List.Subset.trans ?_ (ih _)
    by_cases h : l.contains (pyCleanUrl m) = true
    · rw [if_pos h]
      exact List.Subset.refl l
    · rw [if_neg h]
      exact List.subset_append_left l _

theorem dedupAppend_mem : ∀ (ms l : List String) (m : String), m ∈ ms →
    pyCleanUrl m ∈ dedupAppend l ms := by
  intro ms
  induction ms with
  | nil => intro l m h; cases h
  | cons m0 rest ih =>
    intro l m h
    rw [dedupAppend_cons]
    rcases List.mem_cons.mp h with rfl | h'
    · apply dedupAppend_subset
      by_cases hc : l.contains (pyCleanUrl m) = true
      · rw [if_pos hc]
        simpa using hc
      · rw [if_neg hc]
        exact List.mem_append_right l (List.mem_singleton_self _)
    · exact ih _ m h'

theorem audioStep_snd (content : String) (acc : List String × Option String)
    (pat : List RTok) :
    (audioStep content acc pat).2 = ((findall false pat content).getLast?).or acc.2 := by
  unfold audioStep
  cases h : (findall false pat content).getLast? <;> simp [h, Option.or]

theorem foldl_audioStep_snd (content : String) :
    ∀ (pats : List (List RTok)) (acc : List String × Option String),
      (pats.foldl (audioStep content) acc).2 =
        ((pats.map fun pat => findall false pat content).flatten).getLast?.or acc.2 := by
  intro pats
  induction pats with
  | nil => intro acc; rfl
  | cons pat rest ih =>
    intro acc
    rw [List.foldl_cons, ih, List.map_cons, List.flatten_cons, List.getLast?_append]
    rw [audioStep_snd, Option.or_assoc]

theorem audioScan_snd (content : String) :
    (audioScan content).2 =
      ((audioPatterns.map fun pat => findall false pat content).flatten).getLast? := by
  unfold audioScan
  rw [foldl_audioStep_snd]
  exact Option.or_none

theorem foldl_audioStep_subset (content : String) :
    ∀ (pats : List (List RTok)) (acc : List String × Option String),
      acc.1 ⊆ (pats.foldl (audioStep content) acc).1 := by
  intro pats
  induction pats with
  | nil => intro acc; exact List.Subset.refl _
  | cons p0 rest ih =>
    intro acc
    rw [List.foldl_cons]
    exact List.Subset.trans (dedupAppend_subset (findall false p0 content) acc.1)
      (ih (audioStep content acc p0))

theorem foldl_audioStep_mem (content : String) :
    ∀ (pats : List (List RTok)) (acc : List String × Option String)
      (pat : List RTok), pat ∈ pats → ∀ m ∈ findall false pat content,
      pyCleanUrl m ∈ (pats.foldl (audioStep content) acc).1 := by
  intro pats
  induction pats with
  | nil => intro acc pat h; cases h
  | cons p0 rest ih =>
    intro acc pat h m hm
    rcases List.mem_cons.mp h with rfl | h'
    · rw [List.foldl_cons]
      exact foldl_audioStep_subset content rest _ (dedupAppend_mem _ _ m hm)
    · rw [List.foldl_cons]
      exact ih _ pat h' m hm

theorem foldl_audioStep_of_empty (content : String) :
    ∀ (pats : List (List RTok)) (acc : List String × Option String),
      (∀ pat ∈ pats, findall false pat content = []) →
      pats.foldl (audioStep content) acc = acc := by
  intro pats
  induction pats with
  | nil => intro acc _; rfl
  | cons p0 rest ih =>
    intro acc hall
    rw [List.foldl_cons]
    have h0 : findall false p0 content = [] := hall p0 (List.mem_cons_self p0 rest)
    have hstep : audioStep content acc p0 = acc := by
      unfold audioStep dedupAppend
      rw [h0]
      rfl
    rw [hstep]
    exact ih _ fun pat h => hall pat (List.mem_cons_of_mem _ h)

theorem audioScan_of_empty {content : String}
    (hall : ∀ pat ∈ audioPatterns, findall false pat content = []) :
    audioScan content = ([], none) :=
  foldl_audioStep_of_empty content audioPatterns ([], none) hall

/-- Claim C7 (amended): extraction is total; for an invalid page URL it
returns `None` without raising; for a valid URL and page text in which no
audio pattern matches it returns a record with an empty candidate list
whose `original_url` is the page URL — but the title, description and
duration fields are null exactly when their own fallback patterns all
miss, not unconditionally. -/
theorem extract_metadata_no_match (now : String) (url : Option String) (content : String) :
    (urlInvalid url = true → extract_metadata now url content = none) ∧
    (urlInvalid url = false →
      (∀ pat ∈ audioPatterns, findall false pat content = []) →
      extract_metadata now url content = some
        { original_url := url.getD ""
          audio_urls := []
          title := extractWithPatterns content titlePatterns
          description := extractWithPatterns content descriptionPatterns
          duration := extractWithPatterns content durationPatterns
          extracted_at := now } ∧
      (extractWithPatterns content titlePatterns = none ↔
        ∀ p ∈ titlePatterns, searchGroup true p content = none) ∧
      (extractWithPatterns content descriptionPatterns = none ↔
        ∀ p ∈ descriptionPatterns, searchGroup true p content = none) ∧
      (extractWithPatterns content durationPatterns = none ↔
        ∀ p ∈ durationPatterns, searchGroup true p content = none)) := by
  constructor
  · intro h
    simp [extract_metadata, h]
  · intro hv hall
    refine ⟨?_, ?_, ?_, ?_⟩
    · simp [extract_metadata, hv, audioScan_of_empty hall]
    · simp [extractWithPatterns, List.findSome?_eq_none_iff, Option.map_eq_none']
    · simp [extractWithPatterns, List.findSome?_eq_none_iff, Option.map_eq_none']
    · simp [extractWithPatterns, List.findSome?_eq_none_iff, Option.map_eq_none']

/-- Counterexample to claim C7 as stated: `<title>x</title>` matches no
audio-URL pattern, yet the extracted title field is not null. -/
theorem extract_metadata_null_fields_counterexample :
    (∀ pat ∈ audioPatterns, findall false pat "<title>x</title>" = []) ∧
    extract_metadata "T" (some "https://page") "<title>x</title>" =
      some { original_url := "https://page", audio_urls := [],
             title := some "x", description := none, duration := none,
             extracted_at := "T" } ∧
    (some "x" : Option String) ≠ none := by
  refine ⟨by decide, by decide, by decide⟩

/-- Witness for C7's amended theorem at a concrete pattern-free page. -/
theorem extract_metadata_no_match_witness :
    (urlInvalid (some "https://page") = true →
      extract_metadata "T" (some "https://page") "plain text" = none) ∧
    (urlInvalid (some "https://page") = false →
      (∀ pat ∈ audioPatterns, findall false pat "plain text" = []) →
      extract_metadata "T" (some "https://page") "plain text" = some
        { original_url := (some "https://page").getD ""
          audio_urls := []
          title := extractWithPatterns "plain text" titlePatterns
          description := extractWithPatterns "plain text" descriptionPatterns
          duration := extractWithPatterns "plain text" durationPatterns
          extracted_at := "T" } ∧
      (extractWithPatterns "plain text" titlePatterns = none ↔
        ∀ p ∈ titlePatterns, searchGroup true p "plain text" = none) ∧
      (extractWithPatterns "plain text" descriptionPatterns = none ↔
        ∀ p ∈ descriptionPatterns, searchGroup true p "plain text" = none) ∧
      (extractWithPatterns "plain text" durationPatterns = none ↔
        ∀ p ∈ durationPatterns, searchGroup true p "plain text" = none)) :=
  extract_metadata_no_match "T" (some "https://page") "plain text"

/-- Claim C10: for a valid page URL, `original_url` is the page URL
exactly as the fallback when no audio pattern matched; otherwise it is the
last raw audio match in pattern-iteration order (the `for url in matches`
loop rebinds `url`), and its cleaned form is among the deduplicated
candidates. -/
theorem extract_metadata_original_url (now u content : String)
    (hv : urlInvalid (some u) = false) :
    extract_metadata now (some u) content = some
      { original_url := (audioScan content).2.getD u
        audio_urls := (audioScan content).1
        title := extractWithPatterns content titlePatterns
        description := extractWithPatterns content descriptionPatterns
        duration := extractWithPatterns content durationPatterns
        extracted_at := now } ∧
    (audioScan content).2.getD u =
      ((((audioPatterns.map fun pat => findall false pat content).flatten).getLast?).getD u) ∧
    (∀ m, ((audioPatterns.map fun pat => findall false pat content).flatten).getLast? = some m →
      pyCleanUrl m ∈ (audioScan content).1) := by
  refine ⟨by simp [extract_metadata, hv], by rw [audioScan_snd], ?_⟩
  intro m hm
  have hmem : m ∈ (audioPatterns.map fun pat => findall false pat content).flatten :=
    List.mem_of_getLast?_eq_some hm
  rcases List.mem_flatten.mp hmem with ⟨l, hl, hml⟩
  rcases List.mem_map.mp hl with ⟨pat, hpat, rfl⟩
  exact foldl_audioStep_mem content audioPatterns ([], none) pat hpat m hml

/-- Witness for C10 on the spec's example page text, where the single
megaphone URL is both the last match and the sole deduplicated candidate. -/
theorem extract_metadata_original_url_witness :
    extract_metadata "T" (some "https://page")
        "xx https://traffic.megaphone.fm/ABC123.mp3\"junk" = some
      { original_url := (audioScan "xx https://traffic.megaphone.fm/ABC123.mp3\"junk").2.getD "https://page"
        audio_urls := (audioScan "xx https://traffic.megaphone.fm/ABC123.mp3\"junk").1
        title := extractWithPatterns "xx https://traffic.megaphone.fm/ABC123.mp3\"junk" titlePatterns
        description := extractWithPatterns "xx https://traffic.megaphone.fm/ABC123.mp3\"junk" descriptionPatterns
        duration := extractWithPatterns "xx https://traffic.megaphone.fm/ABC123.mp3\"junk" durationPatterns
        extracted_at := "T" } ∧
    (audioScan "xx https://traffic.megaphone.fm/ABC123.mp3\"junk").2.getD "https://page" =
      ((((audioPatterns.map fun pat =>
        findall false pat "xx https://traffic.megaphone.fm/ABC123.mp3\"junk").flatten).getLast?).getD "https://page") ∧
    (∀ m, ((audioPatterns.map fun pat =>
        findall false pat "xx https://traffic.megaphone.fm/ABC123.mp3\"junk").flatten).getLast? = some m →
      pyCleanUrl m ∈ (audioScan "xx https://traffic.megaphone.fm/ABC123.mp3\"junk").1) :=
  extract_metadata_original_url "T" "https://page"
    "xx https://traffic.megaphone.fm/ABC123.mp3\"junk" (by decide)

/-! ## C8: `format_filename` -/

/-- Claim C8: `format_filename` is total by construction; a date string
parsing as `MM/DD/YYYY` (when it contains a slash) or as `YYYYMMDD`
(otherwise) yields that date as the filename's final `YYYYMMDD` segment;
any other date string (and a missing date) yields the run's current date;
missing or empty name components become the literal `unknown`. -/
theorem format_filename_spec :
    (∀ today source cand pod s y m d, s.toList.contains '/' = true →
       parseSlashDate s = some (y, m, d) →
       format_filename today source cand pod (some s) =
         source ++ "_" ++ clean_string cand ++ "_" ++ clean_string pod ++ "_" ++
           fmtYMD y m d) ∧
    (∀ today source cand pod s y m d, s.toList.contains '/' = false →
       parseCompactDate s = some (y, m, d) →
       format_filename today source cand pod (some s) =
         source ++ "_" ++ clean_string cand ++ "_" ++ clean_string pod ++ "_" ++
           fmtYMD y m d) ∧
    (∀ today source cand pod s,
       (s.toList.contains '/' = true → parseSlashDate s = none) →
       (s.toList.contains '/' = false → parseCompactDate s = none) →
       format_filename today source cand pod (some s) =
         source ++ "_" ++ clean_string cand ++ "_" ++ clean_string pod ++ "_" ++ today) ∧
    (∀ today source cand pod,
       format_filename today source cand pod none =
         source ++ "_" ++ clean_string cand ++ "_" ++ clean_string pod ++ "_" ++ today) ∧
    (clean_string none = "unknown" ∧ clean_string (some "") = "unknown") := by
  refine ⟨?_, ?_, ?_, ?_, rfl, rfl⟩
  · intro today source cand pod s y m d hs hparse
    have hs2 : '/' ∈ s.data := by simpa using hs
    simp [format_filename, hs2, hparse]
  · intro today source cand pod s y m d hs hparse
    have hs2 : '/' ∉ s.data := by simpa using hs
    simp [format_filename, hs2, hparse]
  · intro today source cand pod s h1 h2
    cases hc : s.toList.contains '/' with
    | true =>
      have hs2 : '/' ∈ s.data := by simpa using hc
      simp [format_filename, hs2, h1 hc]
    | false =>
      have hs2 : '/' ∉ s.data := by simpa using hc
      simp [format_filename, hs2, h2 hc]
  · intro today source cand pod
    simp [format_filename]

/-- Witness for C8: the spec's own examples (`3/5/2024` becomes
`20240305`, `not-a-date` falls back to the run date), plus the strptime
edge cases: a two-digit year (`%Y` requires four digits, so fall back), a
space-padded day (accepted by `%d`), and a five-digit compact string
(rejected, fall back). -/
theorem format_filename_spec_witness :
    format_filename "20250101" "applepodcasts" (some "Jane Doe") (some "The Show")
        (some "3/5/2024") = "applepodcasts_jane doe_the show_20240305" ∧
    format_filename "20250101" "applepodcasts" none (some "")
        (some "not-a-date") = "applepodcasts_unknown_unknown_20250101" ∧
    format_filename "20250101" "applepodcasts" (some "Jane Doe") (some "The Show")
        (some "3/5/24") = "applepodcasts_jane doe_the show_20250101" ∧
    format_filename "20250101" "applepodcasts" (some "Jane Doe") (some "The Show")
        (some "3/ 5/2024") = "applepodcasts_jane doe_the show_20240305" ∧
    format_filename "20250101" "applepodcasts" (some "Jane Doe") (some "The Show")
        (some "20241") = "applepodcasts_jane doe_the show_20250101" := by
  refine ⟨?_, ?_, ?_, ?_, ?_⟩
  · have h := format_filename_spec.1 "20250101" "applepodcasts" (some "Jane Doe")
      (some "The Show") "3/5/2024" 2024 3 5 (by decide) (by decide)
    exact h.trans (by decide)
  · have h := format_filename_spec.2.2.1 "20250101" "applepodcasts" none (some "")
      "not-a-date" (fun hc => by simp at hc) (fun _ => by decide)
    exact h.trans (by decide)
  · have h := format_filename_spec.2.2.1 "20250101" "applepodcasts" (some "Jane Doe")
      (some "The Show") "3/5/24" (fun _ => by decide)
      (fun hc => absurd hc (by decide))
    exact h.trans (by decide)
  · have h := format_filename_spec.1 "20250101" "applepodcasts" (some "Jane Doe")
      (some "The Show") "3/ 5/2024" 2024 3 5 (by decide) (by decide)
    exact h.trans (by decide)
  · have h := format_filename_spec.2.2.1 "20250101" "applepodcasts" (some "Jane Doe")
      (some "The Show") "20241" (fun hc => absurd hc (by decide))
      (fun _ => by decide)
    exact h.trans (by decide)

end Podcast
